import Mathlib

/-!
Verification of the datara schema-migration tool (Go) against its
natural-language specification.

Go strings are modelled as lists of characters (`Str`); the repository's
inputs are ASCII, so Go's byte indices coincide with character indices.
Each Go helper from the source (strings.Split, strings.Fields,
strings.Index, ...) is embedded as a structurally recursive Lean function
with the same semantics, and each function of the repository is translated
clause by clause from the Go source files.
-/

namespace Datara

/-- Go strings, modelled as character lists. -/
abbrev Str := List Char

/-- Coerce a Lean string literal to the character-list representation. -/
def str (s : String) : Str := s.data

/-- Whitespace predicate of Go's unicode.IsSpace, restricted to ASCII. -/
def goIsSpace (c : Char) : Bool :=
  c = ' ' || c = '\t' || c = '\n' || c = '\x0b' || c = '\x0c' || c = '\r'

/-- ASCII uppercase test, matching unicode.IsUpper on ASCII input. -/
def isUpperAZ (c : Char) : Bool := 'A' ≤ c && c ≤ 'Z'

/-- ASCII lowercase test, matching unicode.IsLower on ASCII input. -/
def isLowerAZ (c : Char) : Bool := 'a' ≤ c && c ≤ 'z'

/-- ASCII lowering of one character (unicode.ToLower on ASCII input). -/
def lowerC (c : Char) : Char := if isUpperAZ c then Char.ofNat (c.toNat + 32) else c

/-- ASCII raising of one character (unicode.ToUpper / strings.ToUpper on ASCII). -/
def upperC (c : Char) : Char := if isLowerAZ c then Char.ofNat (c.toNat - 32) else c

/-- strings.ToLower on ASCII content. -/
def toLowerStr (s : Str) : Str := s.map lowerC

/-- strings.ToUpper on ASCII content. -/
def toUpperStr (s : Str) : Str := s.map upperC

/-- Drop leading characters satisfying p (left half of strings.TrimFunc). -/
def dropWhileP (p : Char → Bool) : Str → Str
  | [] => []
  | c :: cs => if p c then dropWhileP p cs else c :: cs

/-- strings.TrimSpace: trim whitespace from both ends. -/
def trimSpace (s : Str) : Str :=
  ((dropWhileP goIsSpace ((dropWhileP goIsSpace s.reverse)).reverse))

/-- strings.Trim with an explicit cutset of characters. -/
def trimCutset (cut : Str) (s : Str) : Str :=
  let p := fun c => cut.contains c
  (dropWhileP p ((dropWhileP p s.reverse)).reverse)

/-- strings.TrimRight with a cutset. -/
def trimRightCutset (cut : Str) (s : Str) : Str :=
  let p := fun c => cut.contains c
  (dropWhileP p s.reverse).reverse

/-- strings.HasSuffix. -/
def hasSuffixStr (suf s : Str) : Bool := suf.isSuffixOf s

/-- strings.HasPrefix. -/
def startsWithStr (pre s : Str) : Bool := pre.isPrefixOf s

/-- strings.TrimSuffix. -/
def trimSuffixStr (suf s : Str) : Str :=
  if hasSuffixStr suf s then s.take (s.length - suf.length) else s

/-- strings.Split with a one-character separator. -/
def splitOnChar (sep : Char) : Str → List Str
  | [] => [[]]
  | c :: cs =>
    match splitOnChar sep cs with
    | [] => [[]]
    | h :: t => if c = sep then [] :: h :: t else (c :: h) :: t

/-- strings.Index of a substring, as an option (Go returns -1 when absent). -/
def indexOfSub (sub : Str) : Str → Option Nat
  | [] => if sub.isEmpty then some 0 else none
  | x :: xs =>
    if sub.isPrefixOf (x :: xs) then some 0
    else (indexOfSub sub xs).map (· + 1)

/-- Auxiliary for strings.Split with a nonempty separator: cut at each
occurrence. The fuel argument only makes the recursion structural; fuel
equal to the length of the string plus one is always sufficient because
every cut consumes at least one character. -/
def splitOnSubFuel (sep : Str) : Nat → Str → List Str
  | 0, s => [s]
  | fuel + 1, s =>
    match indexOfSub sep s with
    | none => [s]
    | some i => s.take i :: splitOnSubFuel sep fuel (s.drop (i + sep.length))

/-- strings.Split with a nonempty separator string. -/
def splitOnSub (sep s : Str) : List Str :=
  match sep with
  | [] => [s]
  | _ => splitOnSubFuel sep (s.length + 1) s

/-- strings.SplitN with limit 2 and a one-character separator: the part
before the first separator and the remainder, or the whole string. -/
def splitN2 (sep : Char) (s : Str) : List Str :=
  match s.findIdx? (· = sep) with
  | none => [s]
  | some i => [s.take i, s.drop (i + 1)]

/-- strings.LastIndex of a one-character needle, as an option. -/
def lastIndexOfChar (c : Char) (s : Str) : Option Nat :=
  match (indexOfSub [c] s.reverse) with
  | none => none
  | some i => some (s.length - 1 - i)

/-- strings.Contains. -/
def containsSub (sub s : Str) : Bool := (indexOfSub sub s).isSome

/-- Go slice expression s[i:j] (well-formed uses only). -/
def slice (s : Str) (i j : Nat) : Str := (s.take j).drop i

/-- strings.Fields: split around runs of whitespace, dropping empties. -/
def fieldsAux : Str → Str → List Str
  | [], cur => if cur.isEmpty then [] else [cur.reverse]
  | c :: cs, cur =>
    if goIsSpace c then
      if cur.isEmpty then fieldsAux cs [] else cur.reverse :: fieldsAux cs []
    else fieldsAux cs (c :: cur)

/-- strings.Fields. -/
def fields (s : Str) : List Str := fieldsAux s []

/-- strings.ReplaceAll, via split and join (Replace with n = -1). -/
def replaceAll (old new s : Str) : Str :=
  match splitOnSub old s with
  | [] => s
  | h :: t => h ++ t.foldl (fun acc part => acc ++ new ++ part) []

/-- Decimal digits of a natural number, most significant first. The fuel
argument only makes the recursion structural. -/
def natDigitsFuel : Nat → Nat → Str
  | 0, n => [Char.ofNat (n + 48)]
  | fuel + 1, n =>
    if n < 10 then [Char.ofNat (n + 48)]
    else natDigitsFuel fuel (n / 10) ++ [Char.ofNat (n % 10 + 48)]

/-- Decimal digits of a natural number, most significant first. -/
def natDigits (n : Nat) : Str := natDigitsFuel n n

/-- fmt.Sprintf of a Go int (as used by the sources, always on small values). -/
def intToStr (i : Int) : Str :=
  if i < 0 then '-' :: natDigits i.natAbs else natDigits i.toNat

/-- Numeric value of a digit string (used by atoi). -/
def digitsToNat (s : Str) : Nat :=
  s.foldl (fun a c => a * 10 + (c.toNat - 48)) 0

/-- strconv.Atoi: optional sign followed by at least one digit. -/
def atoi (s : Str) : Option Int :=
  match s with
  | [] => none
  | '-' :: rest =>
    if rest ≠ [] && rest.all Char.isDigit then some (-(digitsToNat rest : Int)) else none
  | '+' :: rest =>
    if rest ≠ [] && rest.all Char.isDigit then some ((digitsToNat rest : Int)) else none
  | _ =>
    if s.all Char.isDigit then some ((digitsToNat s : Int)) else none

/-- fmt.Sscanf with a %d verb: skip leading spaces, read a digit run; on
failure the scanned-into variable keeps its zero value. -/
def sscanfD (s : Str) : Int :=
  let s := dropWhileP goIsSpace s
  match s with
  | '-' :: rest =>
    let ds := rest.takeWhile Char.isDigit
    if ds.isEmpty then 0 else -(digitsToNat ds : Int)
  | _ =>
    let ds := s.takeWhile Char.isDigit
    if ds.isEmpty then 0 else (digitsToNat ds : Int)

/-- Bytewise (ASCII lexicographic) strict order used by sort.Strings. -/
def strLt : Str → Str → Bool
  | [], [] => false
  | [], _ :: _ => true
  | _ :: _, [] => false
  | a :: as, b :: bs =>
    if a.toNat < b.toNat then true
    else if b.toNat < a.toNat then false
    else strLt as bs

/-- Insert into a lexicographically sorted list of strings. -/
def insertSorted (x : Str) : List Str → List Str
  | [] => [x]
  | y :: ys => if strLt y x then y :: insertSorted x ys else x :: y :: ys

/-- sort.Strings, as an insertion sort by the bytewise order. -/
def sortStrs : List Str → List Str
  | [] => []
  | x :: xs => insertSorted x (sortStrs xs)

end Datara

namespace Datara

/-! Naming Normalizer: pluralize and the two toSnakeCase implementations.
Translated from src/datara.go (pluralize, toSnakeCase) and from the sql
source file (part_001's toSnakeCase, called toSnakeCaseSql here because the
repository defines two functions of that name). -/

/-- pluralize from src/datara.go lines 207-221. -/
def pluralize (s : Str) : Str :=
  if s = [] then str "s"
  else if hasSuffixStr (str "s") s then s ++ str "es"
  else if hasSuffixStr (str "y") s then s.take (s.length - 1) ++ str "ies"
  else s ++ str "s"

/-- Helper of the sql file's toSnakeCase: insert an underscore before every
uppercase letter except at position zero (the loop of part_001 lines 541-547). -/
def underscoreAll : Bool → Str → Str
  | _, [] => []
  | first, c :: cs =>
    (if !first && ('A' ≤ c && c ≤ 'Z') then ['_', c] else [c]) ++ underscoreAll false cs

/-- toSnakeCase from the sql source file (part_001 lines 532-549), with a
structural fuel argument: special cases for a name equal to ID or ending in
ID, otherwise an underscore before every interior uppercase letter, then
lowercasing. Every recursive call strips a two-character suffix, so fuel
equal to the length of the string is always sufficient. -/
def toSnakeCaseSqlFuel : Nat → Str → Str
  | 0, s => toLowerStr (underscoreAll true s)
  | fuel + 1, s =>
    if s = str "ID" then str "id"
    else if hasSuffixStr (str "ID") s then
      toSnakeCaseSqlFuel fuel (s.take (s.length - 2)) ++ str "_id"
    else toLowerStr (underscoreAll true s)

/-- toSnakeCase from the sql source file (part_001 lines 532-549). -/
def toSnakeCaseSql (s : Str) : Str := toSnakeCaseSqlFuel s.length s

/-- Auxiliary loop of toSnakeCase from src/datara.go lines 223-239: prev is
the previous rune (none at the first position), and an underscore is written
before an uppercase rune whose neighbour on either side is lowercase. -/
def tscGoAux : Option Char → Str → Str
  | _, [] => []
  | prev, c :: rest =>
    let boundary :=
      match prev with
      | none => false
      | some p =>
        isUpperAZ c && (isLowerAZ p ||
          (match rest with
           | n :: _ => isLowerAZ n
           | [] => false))
    (if boundary then ['_', lowerC c] else [lowerC c]) ++ tscGoAux (some c) rest

/-- toSnakeCase from src/datara.go lines 223-239. -/
def toSnakeCaseGo (s : Str) : Str := tscGoAux none s

end Datara

namespace Datara

/-! Schema Model, translated from the sql source file (part_001 lines 11-59).
Column.Default is Go's interface value; the values that occur in this
codebase are strings, ints and bools. -/

/-- A Go interface value used as a column default. -/
inductive GoDefault
  | s (v : Str)
  | i (v : Int)
  | b (v : Bool)
deriving DecidableEq, Repr

/-- Column of the Schema Model (part_001 lines 26-35). -/
structure Column where
  name : Str
  type : Str
  length : Int := 0
  nullable : Bool := false
  default : Option GoDefault := none
  autoIncrement : Bool := false
  isPrimaryKey : Bool := false
  isUnique : Bool := false
deriving DecidableEq, Repr

/-- Index of the Schema Model (part_001 lines 38-43). -/
structure Index where
  name : Str
  columns : List Str
  type : Str
  unique : Bool := false
deriving DecidableEq, Repr

/-- PrimaryKey of the Schema Model (part_001 lines 46-49). -/
structure PrimaryKey where
  name : Str
  columns : List Str
deriving DecidableEq, Repr

/-- ForeignKey of the Schema Model (part_001 lines 52-59). -/
structure ForeignKey where
  name : Str
  columns : List Str
  referenceTable : Str
  referenceColumns : List Str
  onDelete : Str
  onUpdate : Str
deriving DecidableEq, Repr

/-- Table of the Schema Model (part_001 lines 17-23). -/
structure Table where
  name : Str
  columns : List Column := []
  indexes : List Index := []
  foreignKeys : List ForeignKey := []
  primaryKey : Option PrimaryKey := none
deriving DecidableEq, Repr

/-- Schema of the Schema Model (part_001 lines 12-14). -/
structure Schema where
  tables : List Table
deriving DecidableEq, Repr

/-- strings.Join. -/
def joinSep (sep : Str) : List Str → Str
  | [] => []
  | [x] => x
  | x :: rest => x ++ sep ++ joinSep sep rest

/-! SQL Codec, serialization side: createTableSQL, ToSQL, ToDownSQL
(part_001 lines 496-529 and 753-875). -/

/-- One column line of createTableSQL (part_001 lines 760-809), without the
separating comma. -/
def columnSQL (c : Column) : Str :=
  str "  `" ++ c.name ++ str "` " ++
  (if hasSuffixStr (str "UNSIGNED") c.type then
     trimSuffixStr (str " UNSIGNED") c.type ++ str " UNSIGNED"
   else c.type) ++
  (if c.nullable then str " NULL" else str " NOT NULL") ++
  (if c.autoIncrement then str " AUTO_INCREMENT" else []) ++
  (match c.default with
   | none => []
   | some (.s v) =>
     if v = str "CURRENT_TIMESTAMP" || containsSub (str "CURRENT_TIMESTAMP ON UPDATE") v then
       str " DEFAULT " ++ v
     else
       str " DEFAULT '" ++ replaceAll (str "'") (str "''") v ++ str "'"
   | some (.b true) => str " DEFAULT 1"
   | some (.b false) => str " DEFAULT 0"
   | some (.i n) => str " DEFAULT " ++ intToStr n)

/-- The column loop of createTableSQL: separator written for every column
index other than the last. -/
def columnsSQL : List Column → Str
  | [] => []
  | [c] => columnSQL c
  | c :: rest => columnSQL c ++ str ",\n" ++ columnsSQL rest

/-- Dedup key of an index: its joined column names (part_001 line 831). -/
def indexKeyOf (ix : Index) : Str := joinSep (str "_") ix.columns

/-- Rendering of one UNIQUE KEY clause (part_001 line 834). -/
def renderUniqueIndex (ix : Index) : Str :=
  str ",\n  UNIQUE KEY `" ++ ix.name ++ str "` (`" ++ joinSep (str "`,`") ix.columns ++ str "`)"

/-- Rendering of one KEY clause (part_001 line 844). -/
def renderNormalIndex (ix : Index) : Str :=
  str ",\n  KEY `" ++ ix.name ++ str "` (`" ++ joinSep (str "`,`") ix.columns ++ str "`)"

/-- The index emission loop with its seen-set of joined column names
(part_001 lines 829-847); returns the emitted text and the final seen-set. -/
def indexLoop (render : Index → Str) : List Index → List Str → Str × List Str
  | [], seen => ([], seen)
  | ix :: rest, seen =>
    let key := indexKeyOf ix
    if seen.contains key then indexLoop render rest seen
    else
      let out := indexLoop render rest (key :: seen)
      (render ix ++ out.1, out.2)

/-- Rendering of one FOREIGN KEY constraint clause (part_001 lines 854-866). -/
def renderFK (fk : ForeignKey) : Str :=
  str ",\n  CONSTRAINT `" ++ fk.name ++ str "` FOREIGN KEY (`" ++
  joinSep (str "`,`") fk.columns ++ str "`) REFERENCES `" ++ fk.referenceTable ++
  str "` (`" ++ joinSep (str "`,`") fk.referenceColumns ++ str "`)" ++
  (if fk.onDelete ≠ [] then str " ON DELETE " ++ fk.onDelete else []) ++
  (if fk.onUpdate ≠ [] then str " ON UPDATE " ++ fk.onUpdate else [])

/-- The foreign-key emission loop with its seen-set of reference-table plus
joined columns keys (part_001 lines 850-869). -/
def fkLoop : List ForeignKey → List Str → Str
  | [], _ => []
  | fk :: rest, seen =>
    let key := fk.referenceTable ++ str "_" ++ joinSep (str "_") fk.columns
    if seen.contains key then fkLoop rest seen
    else renderFK fk ++ fkLoop rest (key :: seen)

/-- createTableSQL from part_001 lines 753-875. -/
def createTableSQL (table : Table) : Str :=
  str "CREATE TABLE `" ++ table.name ++ str "` (\n" ++
  columnsSQL table.columns ++
  (match table.primaryKey with
   | some pk =>
     if pk.columns ≠ [] then
       str ",\n  PRIMARY KEY (`" ++ joinSep (str "`,`") pk.columns ++ str "`)"
     else []
   | none => []) ++
  (let uniqueIndexes := table.indexes.filter (·.unique)
   let normalIndexes := table.indexes.filter (fun ix => !ix.unique)
   let u := indexLoop renderUniqueIndex uniqueIndexes []
   let n := indexLoop renderNormalIndex normalIndexes u.2
   u.1 ++ n.1) ++
  fkLoop table.foreignKeys [] ++
  str "\n) ENGINE=InnoDB DEFAULT CHARSET=utf8mb4 COLLATE=utf8mb4_unicode_ci;"

/-- One DROP line of ToDownSQL (part_001 line 525). -/
def dropTableLine (t : Table) : Str :=
  str "DROP TABLE IF EXISTS `" ++ t.name ++ str "`;"

/-- The reverse-order loop of ToDownSQL (part_001 lines 517-529): a newline
is written before every DROP other than the first emitted one. -/
def toDownSQLLoop : List Table → Str
  | [] => []
  | [t] => dropTableLine t
  | t :: rest => dropTableLine t ++ str "\n" ++ toDownSQLLoop rest

/-- Schema.ToDownSQL from part_001 lines 517-529. -/
def Schema.toDownSQL (s : Schema) : Str := toDownSQLLoop s.tables.reverse

/-- The table loop of Schema.ToSQL (part_001 lines 501-508): a blank-line
separator is written for every index other than zero. -/
def toSQLTablesLoop : List Table → Str
  | [] => []
  | [t] => createTableSQL t
  | t :: rest => createTableSQL t ++ str "\n\n" ++ toSQLTablesLoop rest

/-- Schema.ToSQL from part_001 lines 496-514. -/
def Schema.toSQL (s : Schema) : Str :=
  str "-- migrate:up\n\n" ++ toSQLTablesLoop s.tables ++
  str "\n\n-- migrate:down\n\n" ++ s.toDownSQL

end Datara

namespace Datara

/-! SQL Codec, parsing side: FromSQL (part_001 lines 878-1108). -/

/-- Extract the text between the first pair of backticks, or the empty
string (the repeated pattern of FromSQL, e.g. lines 899-904). -/
def extractBacktickName (s : Str) : Str :=
  match indexOfSub (str "`") s with
  | none => []
  | some start =>
    match indexOfSub (str "`") (s.drop (start + 1)) with
    | none => []
    | some e => slice s (start + 1) (start + 1 + e)

/-- Parse one body line as a column (part_001 lines 919-980): only lines
whose trimmed form starts with a backtick are columns; the type is the
third whitespace-separated field of the line; DEFAULT takes the text
between the word DEFAULT and the next space. -/
def parseColumnLine (rawLine : Str) : Option Column :=
  let line := trimSpace rawLine
  if !(startsWithStr (str "`") line) then none
  else
    let columnName := extractBacktickName line
    if columnName = [] then none
    else
      let parts := fields line
      if parts.length < 3 then none
      else
        let ctype := toUpperStr (parts.getD 2 [])
        let nullable := !(containsSub (str "NOT NULL") line)
        let autoInc := containsSub (str "AUTO_INCREMENT") line
        let dflt : Option GoDefault :=
          if containsSub (str "DEFAULT") line then
            match indexOfSub (str "DEFAULT") line with
            | some idx =>
              let rest := line.drop (idx + 7)
              some (GoDefault.s (match indexOfSub (str " ") rest with
                | some e => trimSpace (rest.take e)
                | none => trimSpace rest))
            | none => none
          else none
        let length : Int :=
          if containsSub (str "VARCHAR") ctype || containsSub (str "CHAR") ctype then
            match indexOfSub (str "(") line with
            | some st =>
              match indexOfSub (str ")") (line.drop st) with
              | some en => sscanfD (slice line (st + 1) (st + en))
              | none => 0
            | none => 0
          else 0
        some { name := columnName, type := ctype, length := length,
               nullable := nullable, default := dflt, autoIncrement := autoInc }

/-- Parse the PRIMARY KEY clause of a table fragment (part_001 lines
983-996). -/
def parsePrimaryKeyOf (tableSQL tableName : Str) : Option PrimaryKey :=
  if containsSub (str "PRIMARY KEY") tableSQL then
    match indexOfSub (str "PRIMARY KEY") tableSQL with
    | some start =>
      match indexOfSub (str "(") (tableSQL.drop start) with
      | some keyStart =>
        match indexOfSub (str ")") (tableSQL.drop (start + keyStart)) with
        | some keyEnd =>
          let keyStr := slice tableSQL (start + keyStart + 1) (start + keyStart + keyEnd)
          let keyStr := replaceAll (str "`") [] keyStr
          some { name := str "pk_" ++ tableName, columns := splitOnSub (str ", ") keyStr }
        | none => none
      | none => none
    | none => none
  else none

/-- Parse one line as an index (part_001 lines 1001-1027): lines whose
trimmed form starts with UNIQUE KEY or KEY. -/
def parseIndexLine (rawLine : Str) : Option Index :=
  let line := trimSpace rawLine
  if startsWithStr (str "UNIQUE KEY") line || startsWithStr (str "KEY") line then
    let name := extractBacktickName line
    let columns : List Str :=
      match indexOfSub (str "(") line with
      | some st =>
        match indexOfSub (str ")") (line.drop st) with
        | some en =>
          let colStr := slice line (st + 1) (st + en)
          splitOnSub (str ", ") (replaceAll (str "`") [] colStr)
        | none => []
      | none => []
    some { name := name, columns := columns, type := str "BTREE",
           unique := startsWithStr (str "UNIQUE") line }
  else none

/-- Parse one line as a foreign key (part_001 lines 1034-1100): lines that
contain FOREIGN KEY anywhere; the ON DELETE and ON UPDATE actions take the
text between the keyword and the next space. -/
def parseFKLine (rawLine : Str) : Option ForeignKey :=
  let line := trimSpace rawLine
  if containsSub (str "FOREIGN KEY") line then
    let name := extractBacktickName line
    let columns : List Str :=
      match indexOfSub (str "FOREIGN KEY") line with
      | some start =>
        match indexOfSub (str "(") (line.drop start) with
        | some keyStart =>
          match indexOfSub (str ")") (line.drop (start + keyStart)) with
          | some keyEnd =>
            let colStr := slice line (start + keyStart + 1) (start + keyStart + keyEnd)
            splitOnSub (str ", ") (replaceAll (str "`") [] colStr)
          | none => []
        | none => []
      | none => []
    let refInfo : Str × List Str :=
      match indexOfSub (str "REFERENCES") line with
      | some start =>
        let rest := line.drop (start + 10)
        let refTable := extractBacktickName rest
        let refCols : List Str :=
          match indexOfSub (str "(") rest with
          | some colStart =>
            match indexOfSub (str ")") (rest.drop colStart) with
            | some colEnd =>
              let colStr := slice rest (colStart + 1) (colStart + colEnd)
              splitOnSub (str ", ") (replaceAll (str "`") [] colStr)
            | none => []
          | none => []
        (refTable, refCols)
      | none => ([], [])
    let onDelete : Str :=
      if containsSub (str "ON DELETE") line then
        match indexOfSub (str "ON DELETE") line with
        | some start =>
          let rest := line.drop (start + 9)
          (match indexOfSub (str " ") rest with
           | some e => trimSpace (rest.take e)
           | none => trimSpace rest)
        | none => []
      else []
    let onUpdate : Str :=
      if containsSub (str "ON UPDATE") line then
        match indexOfSub (str "ON UPDATE") line with
        | some start =>
          let rest := line.drop (start + 9)
          (match indexOfSub (str " ") rest with
           | some e => trimSpace (rest.take e)
           | none => trimSpace rest)
        | none => []
      else []
    some { name := name, columns := columns, referenceTable := refInfo.1,
           referenceColumns := refInfo.2, onDelete := onDelete, onUpdate := onUpdate }
  else none

/-- Parse one fragment produced by splitting on CREATE TABLE into a Table
(the body of FromSQL's loop, part_001 lines 893-1104). -/
def parseTableFragment (tableSQL : Str) : Option Table :=
  if trimSpace tableSQL = [] then none
  else
    let tableName := extractBacktickName tableSQL
    if tableName = [] then none
    else
      let lines := splitOnChar '\n' tableSQL
      let columns := lines.filterMap parseColumnLine
      let pk := parsePrimaryKeyOf tableSQL tableName
      let indexes :=
        if containsSub (str "UNIQUE KEY") tableSQL || containsSub (str "KEY") tableSQL then
          lines.filterMap parseIndexLine
        else []
      let fks :=
        if containsSub (str "FOREIGN KEY") tableSQL then
          lines.filterMap parseFKLine
        else []
      some { name := tableName, columns := columns, indexes := indexes,
             foreignKeys := fks, primaryKey := pk }

/-- FromSQL from part_001 lines 878-1108. -/
def FromSQL (sql : Str) : Schema :=
  if sql = [] then { tables := [] }
  else { tables := (splitOnSub (str "CREATE TABLE") sql).filterMap parseTableFragment }

end Datara

namespace Datara

/-! Type Resolver and struct parsing pipeline: the part of ParseSchema that
turns field descriptors into the Schema Model (part_001 lines 229-493 and
551-563). Reflection is shallowly embedded: a model is a struct name plus a
list of (exported field name, Go type kind) pairs. -/

/-- The Go type kinds distinguished by the column pipeline. -/
inductive GoKind
  | bool | int8 | int16 | int | int32 | int64
  | uint8 | uint16 | uint | uint32 | uint64
  | float32 | float64
  | string
  | timeTime
  | ptr (k : GoKind)
  | other
deriving DecidableEq, Repr

/-- handleSpecialFields from part_001 lines 261-301. -/
def handleSpecialFields (name : Str) : Option Column :=
  if name = str "id" then
    some { name := str "id", type := str "BIGINT", autoIncrement := true,
           isPrimaryKey := true, nullable := false }
  else if name = str "created_at" then
    some { name := str "created_at", type := str "TIMESTAMP",
           default := some (.s (str "CURRENT_TIMESTAMP")), nullable := false }
  else if name = str "updated_at" then
    some { name := str "updated_at", type := str "TIMESTAMP",
           default := some (.s (str "CURRENT_TIMESTAMP ON UPDATE CURRENT_TIMESTAMP")),
           nullable := false }
  else if name = str "deleted_at" then
    some { name := str "deleted_at", type := str "TIMESTAMP", nullable := true }
  else if name = str "last_login_at" then
    some { name := str "last_login_at", type := str "TIMESTAMP", nullable := true }
  else none

/-- handleNumericType from part_001 lines 304-330; none models the empty
string returned for non-numeric kinds. -/
def handleNumericType : GoKind → Option (Str × Option GoDefault)
  | .bool => some (str "TINYINT(1)", some (.i 0))
  | .int8 => some (str "TINYINT", none)
  | .int16 => some (str "SMALLINT", none)
  | .int => some (str "INT", none)
  | .int32 => some (str "INT", none)
  | .int64 => some (str "BIGINT", none)
  | .uint8 => some (str "TINYINT UNSIGNED", none)
  | .uint16 => some (str "SMALLINT UNSIGNED", none)
  | .uint => some (str "INT UNSIGNED", none)
  | .uint32 => some (str "INT UNSIGNED", none)
  | .uint64 => some (str "BIGINT UNSIGNED", none)
  | .float32 => some (str "FLOAT", none)
  | .float64 => some (str "DOUBLE", none)
  | _ => none

/-- handleStringType from part_001 lines 333-355: type, unique flag,
nullable flag, default. -/
def handleStringType (name : Str) : Str × Bool × Bool × Option GoDefault :=
  if name = str "email" || name = str "username" then
    (str "VARCHAR(255)", true, false, none)
  else if name = str "password" then
    (str "VARCHAR(255)", false, false, none)
  else if name = str "phone" || name = str "phone_number" then
    (str "VARCHAR(20)", false, true, none)
  else if name = str "status" || name = str "role" then
    (str "VARCHAR(50)", false, false, some (.s (str "user")))
  else if name = str "address" || name = str "bio" then
    (str "TEXT", false, true, none)
  else if name = str "avatar" || name = str "website" || name = str "location" then
    (str "VARCHAR(255)", false, true, none)
  else if name = str "is_active" || name = str "is_verified" then
    (str "TINYINT(1)", false, false, some (.i 1))
  else if hasSuffixStr (str "_id") name then
    (str "BIGINT UNSIGNED", false, false, none)
  else
    (str "VARCHAR(255)", false, false, none)

/-- createColumn from part_001 lines 358-371: snake-case the field name and
mark pointer fields nullable. -/
def createColumn (fieldName : Str) (fieldType : GoKind) : Column :=
  { name := toSnakeCaseSql fieldName,
    type := [],
    nullable := match fieldType with | .ptr _ => true | _ => false }

/-- setColumnType from part_001 lines 374-413, applied to the original
(possibly pointer) field type exactly as in newColumn. -/
def setColumnType (column : Column) (fieldType : GoKind) : Column :=
  match handleSpecialFields column.name with
  | some specialColumn => specialColumn
  | none =>
    match handleNumericType fieldType with
    | some (sqlType, dflt) =>
      { column with
        type := sqlType
        default := match dflt with | some d => some d | none => column.default }
    | none =>
      if fieldType = .string then
        let r := handleStringType column.name
        { column with
          type := r.1
          isUnique := r.2.1
          nullable := if r.2.2.1 then true else column.nullable
          default := match r.2.2.2 with | some d => some d | none => column.default }
      else if fieldType = .timeTime then
        { column with
          type := str "DATETIME"
          nullable := true }
      else
        { column with type := str "VARCHAR(255)" }

/-- newColumn from part_001 lines 416-429. -/
def newColumn (fieldName : Str) (fieldType : GoKind) : Column :=
  setColumnType (createColumn fieldName fieldType) fieldType

/-- The per-field body of parseStruct's loop (part_001 lines 439-490):
thread the table through appending the column and any derived primary key,
unique index, foreign key and foreign-key index. -/
def parseStructField (table : Table) (fieldName : Str) (fieldType : GoKind) : Table :=
  let column := newColumn fieldName fieldType
  let table := { table with columns := table.columns ++ [column] }
  let table :=
    if column.isPrimaryKey then
      { table with
        primaryKey := some { name := str "pk_" ++ table.name
                             columns := [column.name] } }
    else table
  let table :=
    if column.isUnique then
      { table with
        indexes := table.indexes ++
          [{ name := str "idx_" ++ table.name ++ str "_" ++ column.name ++ str "_unique"
             columns := [column.name]
             type := str "BTREE"
             unique := true }] }
    else table
  if hasSuffixStr (str "_id") column.name then
    let refTableName := trimSuffixStr (str "_id") column.name ++ str "s"
    let fk : ForeignKey :=
      { name := str "fk_" ++ table.name ++ str "_" ++ column.name
        columns := [column.name]
        referenceTable := refTableName
        referenceColumns := [str "id"]
        onDelete := str "RESTRICT"
        onUpdate := str "RESTRICT" }
    { table with
      foreignKeys := table.foreignKeys ++ [fk]
      indexes := table.indexes ++
        [{ name := str "idx_" ++ table.name ++ str "_" ++ column.name
           columns := [column.name]
           type := str "BTREE"
           unique := false }] }
  else table

/-- parseStruct from part_001 lines 431-493. -/
def parseStruct (structName : Str) (fieldList : List (Str × GoKind)) : Table :=
  fieldList.foldl (fun t f => parseStructField t f.1 f.2)
    { name := toSnakeCaseSql structName ++ str "s" }

/-- addRelations from part_001 lines 551-563: append one more BTREE index
per foreign key of every table. -/
def addRelations (schema : Schema) : Schema :=
  { tables := schema.tables.map (fun t =>
      { t with indexes := t.indexes ++ t.foreignKeys.map (fun fk =>
          { name := str "idx_" ++ t.name ++ str "_" ++ joinSep (str "_") fk.columns,
            columns := fk.columns, type := str "BTREE", unique := false }) }) }

/-- ParseSchema from part_001 lines 229-258, over shallow struct models. -/
def ParseSchema (models : List (Str × List (Str × GoKind))) : Schema :=
  addRelations { tables := models.map (fun m => parseStruct m.1 m.2) }

end Datara

namespace Datara

/-! Diff Engine, translated from src/internal/schema/executor.go. Go maps
are modelled as association lists with insert-or-replace update, and every
loop that ranges over a map takes its iteration order as an explicit list
of keys; ValidOrders below says an order is a permutation of the map's
keys, which is exactly the guarantee Go gives. -/

/-- Keys of an association-list map. -/
def mapKeys (m : List (Str × Str)) : List Str := m.map Prod.fst

/-- First-match lookup in an association-list map. -/
def mapLookup (k : Str) : List (Str × Str) → Option Str
  | [] => none
  | p :: rest => if p.1 = k then some p.2 else mapLookup k rest

/-- Go map assignment m[k] = v: replace an existing binding or append. -/
def mapInsert (m : List (Str × Str)) (k v : Str) : List (Str × Str) :=
  if m.any (fun p => p.1 = k) then
    m.map (fun p => if p.1 = k then (k, v) else p)
  else m ++ [(k, v)]

/-- fmt's %q verb on the identifiers that occur here (no characters that
need escaping): wrap in double quotes. -/
def quoteQ (s : Str) : Str := '"' :: (s ++ ['"'])

/-- extractTableName from executor.go lines 224-234: scan the space-split
parts for the word TABLE followed by another part, and trim that part. -/
def extractTableNameParts : List Str → Str
  | p :: q :: rest =>
    if p = str "TABLE" then trimCutset (str "\"() ") q
    else extractTableNameParts (q :: rest)
  | _ => []

/-- extractTableName from executor.go lines 224-234. -/
def extractTableName (stmt : Str) : Str :=
  extractTableNameParts (splitOnChar ' ' stmt)

/-- parseTables from executor.go lines 201-221: split the schema text on
semicolons and collect trimmed CREATE TABLE statements keyed by table name. -/
def parseTablesMap (schema : Str) : List (Str × Str) :=
  (splitOnChar ';' schema).foldl
    (fun m stmt =>
      let stmt := trimSpace stmt
      if stmt = [] then m
      else if startsWithStr (str "CREATE TABLE") stmt then
        let tableName := extractTableName stmt
        if tableName ≠ [] then mapInsert m tableName stmt else m
      else m)
    []

/-- splitKeepingParentheses from executor.go lines 392-422: split on commas
at parenthesis depth zero; a trailing empty segment is not emitted. -/
def splitKeepingParensAux : Str → Str → Int → List Str
  | [], cur, _ => if cur = [] then [] else [cur.reverse]
  | c :: rest, cur, depth =>
    if c = '(' then splitKeepingParensAux rest (c :: cur) (depth + 1)
    else if c = ')' then splitKeepingParensAux rest (c :: cur) (depth - 1)
    else if c = ',' then
      if depth = 0 then cur.reverse :: splitKeepingParensAux rest [] 0
      else splitKeepingParensAux rest (c :: cur) depth
    else splitKeepingParensAux rest (c :: cur) depth

/-- splitKeepingParentheses from executor.go lines 392-422. -/
def splitKeepingParens (s : Str) : List Str := splitKeepingParensAux s [] 0

/-- The decimal special case of parseColumns (executor.go lines 348-379). -/
def parseColumnsDecimal (colDef : Str) : Option (Str × Str) :=
  match splitN2 ' ' colDef with
  | [p0, rest] =>
    let colName := trimCutset (str "\"") p0
    let rest :=
      match indexOfSub (str "(") rest with
      | some precisionStart =>
        match lastIndexOfChar ')' rest with
        | some precisionEnd =>
          let precision := slice rest (precisionStart + 1) precisionEnd
          let precisionParts := splitOnChar ',' precision
          match precisionParts with
          | [pp, sp] =>
            let p := trimSpace pp
            let s := trimSpace sp
            let defaultValue :=
              if precisionEnd + 1 < rest.length then trimSpace (rest.drop (precisionEnd + 1))
              else []
            str "decimal(" ++ p ++ str "," ++ s ++ str ") " ++ defaultValue
          | _ => rest
        | none => rest
      | none => rest
    some (colName, colName ++ str " " ++ rest)
  | _ => none

/-- The loop body of parseColumns (executor.go lines 341-386). -/
def parseColumnsStep (m : List (Str × Str)) (colDefRaw : Str) : List (Str × Str) :=
  let colDef := trimSpace colDefRaw
  if colDef = [] || startsWithStr (str "PRIMARY KEY") colDef then m
  else if containsSub (str "decimal(") colDef then
    match parseColumnsDecimal colDef with
    | some kv => mapInsert m kv.1 kv.2
    | none =>
      match splitN2 ' ' colDef with
      | [p0, _] => mapInsert m (trimCutset (str "\"") p0) colDef
      | _ => m
  else
    match splitN2 ' ' colDef with
    | [p0, _] => mapInsert m (trimCutset (str "\"") p0) colDef
    | _ => m

/-- parseColumns from executor.go lines 329-389: the column-name to
column-definition map of one CREATE TABLE statement. -/
def parseColumns (tableDef : Str) : List (Str × Str) :=
  match indexOfSub (str "(") tableDef with
  | none => []
  | some start =>
    match lastIndexOfChar ')' tableDef with
    | none => []
    | some stop =>
      (splitKeepingParens (slice tableDef (start + 1) stop)).foldl parseColumnsStep []

/-- cleanColumnDef from executor.go lines 304-326. -/
def cleanColumnDef (defRaw : Str) : Str :=
  let d := trimRightCutset (str ";") (trimSpace defRaw)
  if containsSub (str "decimal(") d then
    match splitN2 ' ' d with
    | [colName, rest] =>
      let rest := replaceAll (str "decimal(") (str "decimal (") rest
      let rest := replaceAll (str ",") (str ", ") rest
      colName ++ str " " ++ rest
    | _ => d
  else d

/-- extractColumnType from executor.go lines 425-433: the first token after
the column name. -/
def extractColumnType (colDef : Str) : Str :=
  match splitN2 ' ' colDef with
  | [_, rest] => (splitOnChar ' ' rest).getD 0 []
  | _ => []

/-- compareTableDefinitions from executor.go lines 237-301, with the three
column-map iteration orders passed explicitly. Every emitted statement is
an (up, down) pair because the Go code appends to the two lists in
lockstep. -/
def compareTableDefinitions (tableName oldDef newDef : Str)
    (ordOld ordNew1 ordNew2 : List Str) : List (Str × Str) :=
  let oldColumns := parseColumns oldDef
  let newColumns := parseColumns newDef
  let dropped := ordOld.filterMap (fun colName =>
    match mapLookup colName oldColumns with
    | some oldColDef =>
      if (mapLookup colName newColumns).isNone then
        some (str "ALTER TABLE " ++ quoteQ tableName ++ str " DROP COLUMN " ++ quoteQ colName,
              str "ALTER TABLE " ++ quoteQ tableName ++ str " ADD COLUMN " ++ oldColDef)
      else none
    | none => none)
  let added := ordNew1.filterMap (fun colName =>
    match mapLookup colName newColumns with
    | some colDef =>
      if (mapLookup colName oldColumns).isNone then
        some (str "ALTER TABLE " ++ quoteQ tableName ++ str " ADD COLUMN " ++ cleanColumnDef colDef,
              str "ALTER TABLE " ++ quoteQ tableName ++ str " DROP COLUMN " ++ quoteQ colName)
      else none
    | none => none)
  let modified := ordNew2.filterMap (fun colName =>
    match mapLookup colName newColumns, mapLookup colName oldColumns with
    | some newColDef, some oldColDef =>
      if oldColDef ≠ newColDef then
        some (str "ALTER TABLE " ++ quoteQ tableName ++ str " ALTER COLUMN " ++ quoteQ colName ++
                str " TYPE " ++ extractColumnType newColDef,
              str "ALTER TABLE " ++ quoteQ tableName ++ str " ALTER COLUMN " ++ quoteQ colName ++
                str " TYPE " ++ extractColumnType oldColDef)
      else none
    | _, _ => none)
  dropped ++ added ++ modified

/-- The iteration orders of every map loop of generateSchemaDiff: the old
tables of pass one, the new tables of passes two and three, and the three
column-map orders of compareTableDefinitions per table name. -/
structure DiffOrders where
  old1 : List Str
  new2 : List Str
  new3 : List Str
  colsOld : Str → List Str
  colsNew1 : Str → List Str
  colsNew2 : Str → List Str

/-- An iteration order is valid when each list is a permutation of the keys
of the map the Go loop ranges over. -/
def ValidOrders (oldSchema newSchema : Str) (o : DiffOrders) : Prop :=
  o.old1.Perm (mapKeys (parseTablesMap oldSchema)) ∧
  o.new2.Perm (mapKeys (parseTablesMap newSchema)) ∧
  o.new3.Perm (mapKeys (parseTablesMap newSchema)) ∧
  ∀ t odef ndef, mapLookup t (parseTablesMap oldSchema) = some odef →
    mapLookup t (parseTablesMap newSchema) = some ndef →
    (o.colsOld t).Perm (mapKeys (parseColumns odef)) ∧
    (o.colsNew1 t).Perm (mapKeys (parseColumns ndef)) ∧
    (o.colsNew2 t).Perm (mapKeys (parseColumns ndef))

/-- The statement of a dropped or created table (fmt with %q, executor.go
lines 153 and 162). -/
def dropTableCascade (tableName : Str) : Str :=
  str "DROP TABLE IF EXISTS " ++ quoteQ tableName ++ str " CASCADE"

/-- The (up, down) statement pairs of generateSchemaDiff (executor.go lines
134-198): dropped tables, then new tables, then modified tables. -/
def generateSchemaDiffPairs (oldSchema newSchema : Str) (o : DiffOrders) :
    List (Str × Str) :=
  let oldTables := parseTablesMap oldSchema
  let newTables := parseTablesMap newSchema
  let droppedTables := o.old1.filterMap (fun tableName =>
    match mapLookup tableName oldTables with
    | some oldTable =>
      if (mapLookup tableName newTables).isNone then
        some (dropTableCascade tableName, oldTable)
      else none
    | none => none)
  let newTablePairs := o.new2.filterMap (fun tableName =>
    match mapLookup tableName newTables with
    | some newTable =>
      if (mapLookup tableName oldTables).isNone then
        some (newTable, dropTableCascade tableName)
      else none
    | none => none)
  let modifiedTables := o.new3.foldr (fun tableName acc =>
    (match mapLookup tableName newTables, mapLookup tableName oldTables with
     | some newTable, some oldTable =>
       compareTableDefinitions tableName oldTable newTable
         (o.colsOld tableName) (o.colsNew1 tableName) (o.colsNew2 tableName)
     | _, _ => []) ++ acc) []
  droppedTables ++ newTablePairs ++ modifiedTables

/-- generateSchemaDiff from executor.go lines 134-198: the joined upSQL and
downSQL strings, empty when no statements were produced. -/
def generateSchemaDiff (oldSchema newSchema : Str) (o : DiffOrders) : Str × Str :=
  let pairs := generateSchemaDiffPairs oldSchema newSchema o
  if pairs = [] then ([], [])
  else (joinSep (str ";\n") (pairs.map Prod.fst) ++ str ";",
        joinSep (str ";\n") (pairs.map Prod.snd) ++ str ";")

/-- formatMigration from executor.go lines 129-131. -/
def formatMigration (upSQL downSQL : Str) : Str :=
  str "-- migrate:up\n\n" ++ upSQL ++ str "\n\n-- migrate:down\n\n" ++ downSQL

/-- The pure decision of Execute after diffing (executor.go lines 107-125):
an empty upSQL means no migration is generated. -/
def migrationOfDiff (oldSchema newSchema : Str) (o : DiffOrders) : Option Str :=
  let d := generateSchemaDiff oldSchema newSchema o
  if d.1 = [] then none else some (formatMigration d.1 d.2)

/-- The iteration order that enumerates each map in construction order;
used to instantiate theorems at concrete inputs. -/
def canonicalOrders (oldSchema newSchema : Str) : DiffOrders :=
  { old1 := mapKeys (parseTablesMap oldSchema)
    new2 := mapKeys (parseTablesMap newSchema)
    new3 := mapKeys (parseTablesMap newSchema)
    colsOld := fun t =>
      mapKeys (parseColumns ((mapLookup t (parseTablesMap oldSchema)).getD []))
    colsNew1 := fun t =>
      mapKeys (parseColumns ((mapLookup t (parseTablesMap newSchema)).getD []))
    colsNew2 := fun t =>
      mapKeys (parseColumns ((mapLookup t (parseTablesMap newSchema)).getD [])) }

end Datara

namespace Datara

/-! Checksum Ledger, translated from src/cmd/datara/main.go lines 244-442.
Byte contents are lists of naturals below 256; crypto/sha256 and
encoding/base64 are embedded in full. -/

/-- Byte strings. -/
abbrev Bytes := List Nat

/-- Two to the thirty-second, the word modulus of SHA-256. -/
def m32 : Nat := 4294967296

/-- Right rotation of a 32-bit word. -/
def rotr32 (x k : Nat) : Nat := x / 2 ^ k + x % 2 ^ k * 2 ^ (32 - k)

/-- Bitwise complement within 32 bits. -/
def not32 (x : Nat) : Nat := Nat.xor x (m32 - 1)

/-- Three-way xor. -/
def xor3 (a b c : Nat) : Nat := Nat.xor (Nat.xor a b) c

/-- The SHA-256 round constants. -/
def sha256K : List Nat :=
  [1116352408, 1899447441, 3049323471, 3921009573, 961987163, 1508970993,
   2453635748, 2870763221, 3624381080, 310598401, 607225278, 1426881987,
   1925078388, 2162078206, 2614888103, 3248222580, 3835390401, 4022224774,
   264347078, 604807628, 770255983, 1249150122, 1555081692, 1996064986,
   2554220882, 2821834349, 2952996808, 3210313671, 3336571891, 3584528711,
   113926993, 338241895, 666307205, 773529912, 1294757372, 1396182291,
   1695183700, 1986661051, 2177026350, 2456956037, 2730485921, 2820302411,
   3259730800, 3345764771, 3516065817, 3600352804, 4094571909, 275423344,
   430227734, 506948616, 659060556, 883997877, 958139571, 1322822218,
   1537002063, 1747873779, 1955562222, 2024104815, 2227730452, 2361852424,
   2428436474, 2756734187, 3204031479, 3329325298]

/-- The SHA-256 initial hash values. -/
def sha256H0 : List Nat :=
  [1779033703, 3144134277, 1013904242, 2773480762,
   1359893119, 2600822924, 528734635, 1541459225]

/-- Big-endian bytes of a 64-bit length field. -/
def be64 (n : Nat) : Bytes :=
  [n / 2 ^ 56 % 256, n / 2 ^ 48 % 256, n / 2 ^ 40 % 256, n / 2 ^ 32 % 256,
   n / 2 ^ 24 % 256, n / 2 ^ 16 % 256, n / 2 ^ 8 % 256, n % 256]

/-- Big-endian bytes of a 32-bit word. -/
def be32 (n : Nat) : Bytes := [n / 2 ^ 24 % 256, n / 2 ^ 16 % 256, n / 2 ^ 8 % 256, n % 256]

/-- SHA-256 message padding. -/
def sha256Pad (msg : Bytes) : Bytes :=
  let L := msg.length
  let k := (64 + 56 - (L + 1) % 64) % 64
  msg ++ [0x80] ++ List.replicate k 0 ++ be64 (8 * L)

/-- Split into fixed-size chunks; the fuel only makes the recursion
structural. -/
def chunksOfFuel (n : Nat) : Nat → List α → List (List α)
  | 0, _ => []
  | _, [] => []
  | fuel + 1, l => l.take n :: chunksOfFuel n fuel (l.drop n)

/-- Split into fixed-size nonempty chunks. -/
def chunksOf (n : Nat) (l : List α) : List (List α) := chunksOfFuel n (l.length + 1) l

/-- Sixteen big-endian 32-bit words of one 64-byte block. -/
def blockWords (block : Bytes) : List Nat :=
  (chunksOf 4 block).map (fun g =>
    g.getD 0 0 * 2 ^ 24 + g.getD 1 0 * 2 ^ 16 + g.getD 2 0 * 2 ^ 8 + g.getD 3 0)

/-- Message-schedule extension: grow the word list from sixteen to
sixty-four entries. -/
def extendW : Nat → List Nat → List Nat
  | 0, w => w
  | fuel + 1, w =>
    let i := w.length
    let s0 := xor3 (rotr32 (w.getD (i - 15) 0) 7) (rotr32 (w.getD (i - 15) 0) 18)
                   (w.getD (i - 15) 0 / 2 ^ 3)
    let s1 := xor3 (rotr32 (w.getD (i - 2) 0) 17) (rotr32 (w.getD (i - 2) 0) 19)
                   (w.getD (i - 2) 0 / 2 ^ 10)
    extendW fuel (w ++ [(w.getD (i - 16) 0 + s0 + w.getD (i - 7) 0 + s1) % m32])

/-- The eight working variables of the SHA-256 compression function. -/
structure H8 where
  a : Nat
  b : Nat
  c : Nat
  d : Nat
  e : Nat
  f : Nat
  g : Nat
  h : Nat

/-- One round of the compression function. -/
def sha256Round (st : H8) (wk : Nat × Nat) : H8 :=
  let s1 := xor3 (rotr32 st.e 6) (rotr32 st.e 11) (rotr32 st.e 25)
  let ch := Nat.xor (Nat.land st.e st.f) (Nat.land (not32 st.e) st.g)
  let t1 := (st.h + s1 + ch + wk.2 + wk.1) % m32
  let s0 := xor3 (rotr32 st.a 2) (rotr32 st.a 13) (rotr32 st.a 22)
  let mj := Nat.xor (Nat.xor (Nat.land st.a st.b) (Nat.land st.a st.c)) (Nat.land st.b st.c)
  let t2 := (s0 + mj) % m32
  ⟨(t1 + t2) % m32, st.a, st.b, st.c, (st.d + t1) % m32, st.e, st.f, st.g⟩

/-- Process one 64-byte block into the running hash values. -/
def sha256Block (hs : List Nat) (block : Bytes) : List Nat :=
  let w := extendW 48 (blockWords block)
  let st0 : H8 := ⟨hs.getD 0 0, hs.getD 1 0, hs.getD 2 0, hs.getD 3 0,
                   hs.getD 4 0, hs.getD 5 0, hs.getD 6 0, hs.getD 7 0⟩
  let st := (w.zip sha256K).foldl sha256Round st0
  [(hs.getD 0 0 + st.a) % m32, (hs.getD 1 0 + st.b) % m32,
   (hs.getD 2 0 + st.c) % m32, (hs.getD 3 0 + st.d) % m32,
   (hs.getD 4 0 + st.e) % m32, (hs.getD 5 0 + st.f) % m32,
   (hs.getD 6 0 + st.g) % m32, (hs.getD 7 0 + st.h) % m32]

/-- crypto/sha256: the 32-byte digest of a byte string. -/
def sha256 (msg : Bytes) : Bytes :=
  ((chunksOf 64 (sha256Pad msg)).foldl sha256Block sha256H0).flatMap be32

/-- The standard base64 alphabet. -/
def b64Alphabet : Str :=
  str "ABCDEFGHIJKLMNOPQRSTUVWXYZabcdefghijklmnopqrstuvwxyz0123456789+/"

/-- One base64 alphabet character. -/
def b64Char (n : Nat) : Char := b64Alphabet.getD n 'A'

/-- encoding/base64 StdEncoding.EncodeToString. -/
def base64Encode : Bytes → Str
  | [] => []
  | [b1] => [b64Char (b1 / 4), b64Char (b1 % 4 * 16), '=', '=']
  | [b1, b2] => [b64Char (b1 / 4), b64Char (b1 % 4 * 16 + b2 / 16), b64Char (b2 % 16 * 4), '=']
  | b1 :: b2 :: b3 :: rest =>
    [b64Char (b1 / 4), b64Char (b1 % 4 * 16 + b2 / 16),
     b64Char (b2 % 16 * 4 + b3 / 64), b64Char (b3 % 64)] ++ base64Encode rest

/-- calculateFileHash from main.go lines 244-247. -/
def calculateFileHash (content : Bytes) : Str :=
  str "h1:" ++ base64Encode (sha256 content)

/-- One entry of a directory listing as returned by os.ReadDir. -/
structure DirEntry where
  name : Str
  isDir : Bool
  content : Bytes

/-- The contents of a named file of a directory listing (os.ReadFile). -/
def contentOf (listing : List DirEntry) (filename : Str) : Bytes :=
  match listing.find? (fun e => e.name = filename) with
  | some e => e.content
  | none => []

/-- The filename-collection loop of calculateGlobalHash (main.go lines
293-298): non-directory entries with the .sql suffix. -/
def sqlFilenames (listing : List DirEntry) : List Str :=
  listing.foldl
    (fun acc e => if !e.isDir && hasSuffixStr (str ".sql") e.name then acc ++ [e.name] else acc)
    []

/-- The content-concatenation loop of calculateGlobalHash (main.go lines
302-309). -/
def concatContents (listing : List DirEntry) (filenames : List Str) : Bytes :=
  filenames.foldl (fun acc n => acc ++ contentOf listing n) []

/-- calculateGlobalHash from main.go lines 282-312; a missing migrations
directory hashes the empty byte string. -/
def calculateGlobalHash (dir : Option (List DirEntry)) : Str :=
  match dir with
  | none => calculateFileHash []
  | some listing => calculateFileHash (concatContents listing (sortStrs (sqlFilenames listing)))

/-- The line splitting of bufio.Scanner with the default ScanLines split
function: newline-terminated lines, carriage returns stripped, no final
empty line. -/
def scanLines (s : Str) : List Str :=
  let ls := (splitOnChar '\n' s).map (fun l => trimRightCutset (str "\r") l)
  match ls.reverse with
  | [] :: rest => rest.reverse
  | _ => ls

/-- readChecksumFile from main.go lines 250-279: a missing file yields the
empty checksum set without an error; otherwise skip the global-hash line
and record every remaining two-field line. -/
def readChecksumFile (file : Option Str) : Except Str (List (Str × Str)) :=
  match file with
  | none => .ok []
  | some content =>
    .ok ((scanLines content).drop 1 |>.foldl
      (fun m line =>
        match fields line with
        | [k, v] => mapInsert m k v
        | _ => m)
      [])

/-- The line-emission loop of writeChecksumFile (main.go lines 336-341). -/
def checksumLines (checksums : List (Str × Str)) (filenames : List Str) : Str :=
  filenames.foldl
    (fun acc n => acc ++ (n ++ [' '] ++ (mapLookup n checksums).getD [] ++ ['\n']))
    []

/-- writeChecksumFile from main.go lines 315-344: the manifest text, global
hash first, then the per-file lines sorted by filename. -/
def writeChecksumFile (checksums : List (Str × Str)) (globalHash : Str) : Str :=
  globalHash ++ ['\n'] ++ checksumLines checksums (sortStrs (mapKeys checksums))

/-- path/filepath.Base on slash paths without trailing slashes. -/
def baseName (p : Str) : Str := (splitOnChar '/' p).getLastD p

/-- The updated checksum map of updateChecksums (main.go lines 349-356). -/
def updatedChecksumMap (manifest : Option Str) (newFile : Str) (content : Bytes) :
    Except Str (List (Str × Str)) :=
  match readChecksumFile manifest with
  | .ok checksums => .ok (mapInsert checksums (baseName newFile) (calculateFileHash content))
  | .error e => .error e

/-- updateChecksums from main.go lines 347-366: the rewritten manifest
text, given the prior manifest and the directory listing after the new
migration file was written. -/
def updateChecksums (manifest : Option Str) (dir : Option (List DirEntry))
    (newFile : Str) (content : Bytes) : Except Str Str :=
  match updatedChecksumMap manifest newFile content with
  | .ok checksums => .ok (writeChecksumFile checksums (calculateGlobalHash dir))
  | .error e => .error e

/-- loadLastSchema from main.go lines 420-442: a missing or empty state
file yields the empty schema without an error, otherwise the state is
parsed with FromSQL. -/
def loadLastSchema (content : Option Str) : Except Str Schema :=
  match content with
  | none => .ok { tables := [] }
  | some c => if c.length = 0 then .ok { tables := [] } else .ok (FromSQL c)

end Datara

namespace Datara

/-! Type Resolver validation: ValidateSQLType from part_001 lines 85-193.
The Go function can panic on a runtime slice-bounds violation when the
input contains an opening parenthesis whose first closing parenthesis does
not lie beyond it; the result type makes that outcome explicit. -/

/-- SQLType from part_001 lines 62-68. -/
structure SQLType where
  name : Str
  length : Int := 0
  precision : Int := 0
  scale : Int := 0
  unsigned : Bool := false
deriving DecidableEq, Repr

/-- The outcome of ValidateSQLType: a successful parse, the unsupported-type
error, or a Go runtime panic. -/
inductive VResult
  | ok (t : SQLType)
  | err
  | panics
deriving DecidableEq, Repr

/-- The parameter parse of ValidateSQLType (part_001 lines 106-123):
a precision and scale pair when the parameters contain a comma, a single
length otherwise. -/
def parseTypeParams (params : Str) (t : SQLType) : SQLType :=
  if containsSub (str ",") params then
    match splitOnChar ',' params with
    | [p0, p1] =>
      let t := match atoi (trimSpace p0) with
               | some p => { t with precision := p }
               | none => t
      match atoi (trimSpace p1) with
      | some s => { t with scale := s }
      | none => t
    | _ => t
  else
    match atoi params with
    | some l => { t with length := l }
    | none => t

/-- The validation switch of ValidateSQLType (part_001 lines 129-192):
default lengths and canonical renames per supported base name, the
unsupported-type error otherwise. -/
def validateBaseType (t : SQLType) : VResult :=
  if t.name = str "TINYINT" then
    .ok (if t.length = 0 then { t with length := 4 } else t)
  else if t.name = str "SMALLINT" then
    .ok (if t.length = 0 then { t with length := 6 } else t)
  else if t.name = str "MEDIUMINT" then
    .ok (if t.length = 0 then { t with length := 9 } else t)
  else if t.name = str "INT" || t.name = str "INTEGER" then
    let t := { t with name := str "INT" }
    .ok (if t.length = 0 then { t with length := 11 } else t)
  else if t.name = str "BIGINT" then
    .ok (if t.length = 0 then { t with length := 20 } else t)
  else if t.name = str "DECIMAL" || t.name = str "NUMERIC" then
    let t := { t with name := str "DECIMAL" }
    let t := if t.precision = 0 then { t with precision := 10 } else t
    .ok (if t.scale = 0 then { t with scale := 2 } else t)
  else if t.name = str "FLOAT" then
    .ok (if t.precision = 0 then { t with precision := 10 } else t)
  else if t.name = str "DOUBLE" || t.name = str "REAL" then
    let t := { t with name := str "DOUBLE" }
    .ok (if t.precision = 0 then { t with precision := 16 } else t)
  else if t.name = str "VARCHAR" || t.name = str "CHAR" then
    .ok (if t.length = 0 then
           (if t.name = str "VARCHAR" then { t with length := 255 }
            else { t with length := 1 })
         else t)
  else if t.name = str "TEXT" || t.name = str "TINYTEXT" ||
          t.name = str "MEDIUMTEXT" || t.name = str "LONGTEXT" then
    .ok { t with length := 0 }
  else if t.name = str "DATETIME" || t.name = str "TIMESTAMP" ||
          t.name = str "DATE" || t.name = str "TIME" then
    .ok { t with length := 0 }
  else if t.name = str "BOOLEAN" || t.name = str "BOOL" then
    .ok { t with name := str "TINYINT", length := 1 }
  else if t.name = str "ENUM" then
    .ok t
  else if t.name = str "JSON" then
    .ok { t with length := 0 }
  else
    .err

/-- The normalization prelude of ValidateSQLType (part_001 lines 87-97):
uppercase, trim, and strip every occurrence of UNSIGNED. -/
def normalizeTypeStr (sqlType : Str) : Str :=
  let s := toUpperStr (trimSpace sqlType)
  if containsSub (str "UNSIGNED") s then trimSpace (replaceAll (str "UNSIGNED") [] s) else s

/-- The body of ValidateSQLType after normalization (part_001 lines
100-126): strings.Contains reports an opening parenthesis exactly when
strings.Index finds one, so the branch on Contains is rendered as the match
on the index; the slice of the parameters panics when the first closing
parenthesis does not lie beyond the opening one. -/
def validateNormalized (s : Str) (unsigned : Bool) : VResult :=
  match indexOfSub (str "(") s with
  | none => validateBaseType { name := s, unsigned := unsigned }
  | some i =>
    match indexOfSub (str ")") s with
    | none => .panics
    | some j =>
      if j < i + 1 then .panics
      else
        validateBaseType (parseTypeParams (slice s (i + 1) j)
          { name := s.take i, unsigned := unsigned })

/-- ValidateSQLType from part_001 lines 85-193. -/
def ValidateSQLType (sqlType : Str) : VResult :=
  validateNormalized (normalizeTypeStr sqlType)
    (containsSub (str "UNSIGNED") (toUpperStr (trimSpace sqlType)))

/-- The base type name in the words of the specification: the name left
after stripping UNSIGNED and any parenthesized parameters. -/
def baseTypeName (sqlType : Str) : Str :=
  match indexOfSub (str "(") (normalizeTypeStr sqlType) with
  | some i => (normalizeTypeStr sqlType).take i
  | none => normalizeTypeStr sqlType

/-- The supported base type names of the validation switch. -/
def supportedTypeNames : List Str :=
  [str "TINYINT", str "SMALLINT", str "MEDIUMINT", str "INT", str "INTEGER",
   str "BIGINT", str "DECIMAL", str "NUMERIC", str "FLOAT", str "DOUBLE",
   str "REAL", str "VARCHAR", str "CHAR", str "TEXT", str "TINYTEXT",
   str "MEDIUMTEXT", str "LONGTEXT", str "DATETIME", str "TIMESTAMP",
   str "DATE", str "TIME", str "BOOLEAN", str "BOOL", str "ENUM", str "JSON"]

/-- An input is panic-free when, after normalization, any opening
parenthesis is matched: the first closing parenthesis lies beyond the first
opening one. -/
def parenWellFormed (sqlType : Str) : Bool :=
  match indexOfSub (str "(") (normalizeTypeStr sqlType) with
  | none => true
  | some i =>
    match indexOfSub (str ")") (normalizeTypeStr sqlType) with
    | none => false
    | some j => i + 1 ≤ j

end Datara

namespace Datara

/-! Shared lemmas about the association-list maps and permutation-stable
loops of the Diff Engine. -/

/-- A filterMap whose function never produces a value is empty. -/
theorem filterMap_eq_nil_of_none {α β : Type} (f : α → Option β) (l : List α)
    (h : ∀ a, f a = none) : l.filterMap f = [] := by
  induction l with
  | nil => rfl
  | cons a rest ih => simp [List.filterMap_cons, h a, ih]

/-- Lookup of a key of the map succeeds. -/
theorem mapLookup_isSome_of_mem_keys {m : List (Str × Str)} {k : Str}
    (h : k ∈ mapKeys m) : (mapLookup k m).isSome := by
  induction m with
  | nil => simp [mapKeys] at h
  | cons p rest ih =>
    simp only [mapKeys, List.map_cons, List.mem_cons] at h
    by_cases hp : p.1 = k
    · simp [mapLookup, hp]
    · rcases h with h | h
      · exact absurd h.symm hp
      · simpa [mapLookup, hp] using ih (by simpa [mapKeys] using h)

/-- Replacing the binding of k leaves lookups of k at the new value,
provided some binding of k exists. -/
theorem mapLookup_map_replace {m : List (Str × Str)} {k : Str} (v : Str)
    (h : m.any (fun p => p.1 = k)) :
    mapLookup k (m.map (fun p => if p.1 = k then (k, v) else p)) = some v := by
  induction m with
  | nil => simp at h
  | cons p rest ih =>
    by_cases hp : p.1 = k
    · simp [mapLookup, hp]
    · simp only [List.any_cons, Bool.or_eq_true, decide_eq_true_eq] at h
      rcases h with h | h
      · exact absurd h hp
      · simpa [mapLookup, hp] using ih h

/-- Go map assignment stores the assigned value. -/
theorem mapLookup_mapInsert_self (m : List (Str × Str)) (k v : Str) :
    mapLookup k (mapInsert m k v) = some v := by
  unfold mapInsert
  by_cases h : m.any (fun p => p.1 = k)
  · simpa [h] using mapLookup_map_replace v h
  · simp only [h, if_false]
    induction m with
    | nil => simp [mapLookup]
    | cons p rest ih =>
      simp only [List.any_cons, Bool.or_eq_true, decide_eq_true_eq, not_or] at h
      simpa [mapLookup, h.1] using ih (by simp [h.2])

/-- Replacing the binding of k leaves lookups of other keys unchanged. -/
theorem mapLookup_map_replace_ne (m : List (Str × Str)) (k v : Str) {k' : Str}
    (h : k' ≠ k) :
    mapLookup k' (m.map (fun p => if p.1 = k then (k, v) else p)) = mapLookup k' m := by
  induction m with
  | nil => rfl
  | cons p rest ih =>
    by_cases hp : p.1 = k
    · have h1 : ¬(k = k') := fun hq => h hq.symm
      have h2 : ¬(p.1 = k') := by rw [hp]; exact h1
      simp [mapLookup, hp, h1, h2, ih]
    · by_cases hq : p.1 = k'
      · simp [mapLookup, hp, hq, h]
      · simp [mapLookup, hp, hq, ih]

/-- Appending a binding of k leaves lookups of other keys unchanged. -/
theorem mapLookup_append_single_ne (m : List (Str × Str)) (k v : Str) {k' : Str}
    (h : k' ≠ k) : mapLookup k' (m ++ [(k, v)]) = mapLookup k' m := by
  induction m with
  | nil =>
    have h1 : ¬(k = k') := fun hq => h hq.symm
    simp [mapLookup, h1]
  | cons p rest ih =>
    by_cases hq : p.1 = k'
    · simp [mapLookup, hq]
    · simp [mapLookup, hq, ih]

/-- Go map assignment leaves the bindings of other keys unchanged. -/
theorem mapLookup_mapInsert_ne (m : List (Str × Str)) (k v : Str) {k' : Str}
    (h : k' ≠ k) : mapLookup k' (mapInsert m k v) = mapLookup k' m := by
  unfold mapInsert
  by_cases hany : m.any (fun p => p.1 = k)
  · simpa [hany] using mapLookup_map_replace_ne m k v h
  · simpa [hany] using mapLookup_append_single_ne m k v h

end Datara

namespace Datara

/-- The schema model that the reflection pipeline produces for a struct
named User with fields ID uint, Email string, Status string, UserID uint
(the shape of the register.go example program). -/
def c1Model : Schema :=
  ParseSchema [(str "User",
    [(str "ID", GoKind.uint), (str "Email", GoKind.string),
     (str "Status", GoKind.string), (str "UserID", GoKind.uint)])]

/-- C1. The codec round trip is broken by the code, which the claim says
cannot happen: FromSQL of ToSQL of a ParseSchema-produced model keeps the
table names and their order, but every column type is replaced by the third
whitespace field of its serialized line (NOT, or UNSIGNED for two-token
types), the status column's default value 'user' comes back as the empty
string, and the foreign key's ON DELETE and ON UPDATE actions RESTRICT come
back empty. -/
theorem c1_round_trip_type_loss :
    (c1Model.tables.map Table.name = [str "users"] ∧
     (FromSQL c1Model.toSQL).tables.map Table.name = [str "users"]) ∧
    c1Model.tables.map (fun t => t.columns.map Column.type) =
      [[str "BIGINT", str "VARCHAR(255)", str "VARCHAR(50)", str "INT UNSIGNED"]] ∧
    (FromSQL c1Model.toSQL).tables.map (fun t => t.columns.map Column.type) =
      [[str "NOT", str "NOT", str "NOT", str "UNSIGNED"]] ∧
    c1Model.tables.map (fun t => t.columns.map Column.default) =
      [[none, none, some (.s (str "user")), none]] ∧
    (FromSQL c1Model.toSQL).tables.map (fun t => t.columns.map Column.default) =
      [[none, none, some (.s []), none]] ∧
    c1Model.tables.map (fun t => t.foreignKeys.map ForeignKey.onDelete) =
      [[str "RESTRICT"]] ∧
    (FromSQL c1Model.toSQL).tables.map (fun t => t.foreignKeys.map ForeignKey.onDelete) =
      [[[]]] := by
  set_option maxRecDepth 100000 in decide

/-- C7. The pluralize examples and the ID example hold, but the toSnakeCase
of the sql source file maps UserAPIKey to user_a_p_i_key; the toSnakeCase
of src/datara.go (the one exercised by the repository's TestToSnakeCase)
maps it to user_api_key as the claim states. -/
theorem c7_naming_examples :
    pluralize (str "status") = str "statuses" ∧
    pluralize (str "user") = str "users" ∧
    pluralize (str "") = str "s" ∧
    toSnakeCaseSql (str "ID") = str "id" ∧
    toSnakeCaseSql (str "UserAPIKey") = str "user_a_p_i_key" ∧
    toSnakeCaseGo (str "UserAPIKey") = str "user_api_key" ∧
    toSnakeCaseGo (str "ID") = str "id" := by
  decide

/-- C9. A missing checksum manifest reads as the empty checksum set without
an error, and a missing or empty persisted schema state loads as the empty
schema without an error. -/
theorem c9_missing_files_not_errors :
    readChecksumFile none = .ok [] ∧
    loadLastSchema none = .ok { tables := [] } ∧
    loadLastSchema (some []) = .ok { tables := [] } := by
  refine ⟨rfl, rfl, rfl⟩

/-- C8, counterexample. On the input TEXT( the base type name TEXT is
supported, so the claim requires success, but ValidateSQLType hits a Go
slice-bounds panic instead of returning. -/
theorem c8_validate_panics_on_unbalanced :
    baseTypeName (str "TEXT(") = str "TEXT" ∧
    str "TEXT" ∈ supportedTypeNames ∧
    ValidateSQLType (str "TEXT(") = .panics := by
  decide

end Datara

namespace Datara

/-- The canonical iteration orders are valid. -/
theorem canonicalOrders_valid (oldS newS : Str) :
    ValidOrders oldS newS (canonicalOrders oldS newS) := by
  refine ⟨List.Perm.refl _, List.Perm.refl _, List.Perm.refl _, ?_⟩
  intro t odef ndef h1 h2
  refine ⟨?_, ?_, ?_⟩
  · show (mapKeys (parseColumns ((mapLookup t (parseTablesMap oldS)).getD []))).Perm _
    rw [h1]
    exact List.Perm.refl _
  · show (mapKeys (parseColumns ((mapLookup t (parseTablesMap newS)).getD []))).Perm _
    rw [h2]
    exact List.Perm.refl _
  · show (mapKeys (parseColumns ((mapLookup t (parseTablesMap newS)).getD []))).Perm _
    rw [h2]
    exact List.Perm.refl _

/-- The new schema of the order-dependence counterexample: two tables. -/
def c2New : Str := str "CREATE TABLE \"a\" (\"x\" INT);CREATE TABLE \"b\" (\"y\" INT)"

/-- The construction-order iteration of the counterexample maps. -/
def c2Ord1 : DiffOrders := canonicalOrders (str "") c2New

/-- The same iteration orders with the two new tables visited in the
opposite order, as a Go map range loop may do on any run. -/
def c2Ord2 : DiffOrders := { c2Ord1 with new2 := [str "b", str "a"] }

/-- The reversed-table iteration order is also valid. -/
theorem c2Ord2_valid : ValidOrders (str "") c2New c2Ord2 := by
  obtain ⟨h1, _, h3, h4⟩ := canonicalOrders_valid (str "") c2New
  refine ⟨h1, ?_, h3, h4⟩
  have hk : mapKeys (parseTablesMap c2New) = [str "a", str "b"] := by decide
  show ([str "b", str "a"]).Perm (mapKeys (parseTablesMap c2New))
  rw [hk]
  exact List.Perm.swap (str "a") (str "b") []

/-- C2, counterexample. Two valid iteration orders of the very same pair of
schema texts give different generateSchemaDiff output, so the output is not
independent of map iteration order: the code never sorts table or column
names before emitting statements. -/
theorem c2_diff_order_dependent :
    ValidOrders (str "") c2New c2Ord1 ∧ ValidOrders (str "") c2New c2Ord2 ∧
    generateSchemaDiff (str "") c2New c2Ord1 ≠ generateSchemaDiff (str "") c2New c2Ord2 :=
  ⟨canonicalOrders_valid _ _, c2Ord2_valid, by decide⟩

/-- Two pointwise-permuted block lists fold to permuted concatenations. -/
theorem foldr_append_pointwise_perm {β : Type} (g g' : Str → List β) (l : List Str)
    (hg : ∀ t, (g t).Perm (g' t)) :
    (l.foldr (fun t acc => g t ++ acc) []).Perm (l.foldr (fun t acc => g' t ++ acc) []) := by
  induction l with
  | nil => exact List.Perm.refl _
  | cons a rest ih => exact List.Perm.append (hg a) ih

/-- Folding appended blocks over a permuted index list permutes the
concatenation. -/
theorem foldr_append_perm_of_perm {β : Type} (g : Str → List β) {l l' : List Str}
    (hl : l.Perm l') :
    (l.foldr (fun t acc => g t ++ acc) []).Perm (l'.foldr (fun t acc => g t ++ acc) []) := by
  induction hl with
  | nil => exact List.Perm.refl _
  | cons x _ ih => exact List.Perm.append (List.Perm.refl _) ih
  | swap x y lrest => exact List.perm_append_comm_assoc _ _ _
  | trans _ _ ih1 ih2 => exact ih1.trans ih2

/-- C2, amended. For any two valid iteration orders the diff produces
permuted lists of (up, down) statement pairs: the collection of emitted
statements is iteration-order independent even though their sequence is
not. -/
theorem c2_diff_statement_sets_stable (oldS newS : Str) (o o' : DiffOrders)
    (h : ValidOrders oldS newS o) (h' : ValidOrders oldS newS o') :
    (generateSchemaDiffPairs oldS newS o).Perm (generateSchemaDiffPairs oldS newS o') := by
  obtain ⟨ho1, ho2, ho3, hocols⟩ := h
  obtain ⟨ho1', ho2', ho3', hocols'⟩ := h'
  unfold generateSchemaDiffPairs
  refine List.Perm.append (List.Perm.append ?_ ?_) ?_
  · exact List.Perm.filterMap _ (ho1.trans ho1'.symm)
  · exact List.Perm.filterMap _ (ho2.trans ho2'.symm)
  · refine (foldr_append_pointwise_perm _ _ o.new3 ?_).trans
      (foldr_append_perm_of_perm _ (ho3.trans ho3'.symm))
    intro t
    cases hn : mapLookup t (parseTablesMap newS) with
    | none => simp [hn]
    | some ndef =>
      cases hd : mapLookup t (parseTablesMap oldS) with
      | none => simp [hn, hd]
      | some odef =>
        simp only [hn, hd]
        obtain ⟨hc1, hc2, hc3⟩ := hocols t odef ndef hd hn
        obtain ⟨hc1', hc2', hc3'⟩ := hocols' t odef ndef hd hn
        unfold compareTableDefinitions
        refine List.Perm.append (List.Perm.append ?_ ?_) ?_
        · exact List.Perm.filterMap _ (hc1.trans hc1'.symm)
        · exact List.Perm.filterMap _ (hc2.trans hc2'.symm)
        · exact List.Perm.filterMap _ (hc3.trans hc3'.symm)

/-- C2, witness. The permutation invariance applies to the concrete
counterexample inputs and their two valid orders. -/
theorem c2_diff_statement_sets_stable_witness :
    (ValidOrders (str "") c2New c2Ord1 ∧ ValidOrders (str "") c2New c2Ord2) ∧
    (generateSchemaDiffPairs (str "") c2New c2Ord1).Perm
      (generateSchemaDiffPairs (str "") c2New c2Ord2) :=
  ⟨⟨canonicalOrders_valid _ _, c2Ord2_valid⟩,
   c2_diff_statement_sets_stable _ _ _ _ (canonicalOrders_valid _ _) c2Ord2_valid⟩

end Datara

namespace Datara

/-- Comparing a table definition with itself produces no statements, for
any column iteration orders. -/
theorem compareTableDefinitions_self (t d : Str) (o1 o2 o3 : List Str) :
    compareTableDefinitions t d d o1 o2 o3 = [] := by
  simp only [compareTableDefinitions]
  rw [filterMap_eq_nil_of_none _ _ ?h1, filterMap_eq_nil_of_none _ _ ?h2,
      filterMap_eq_nil_of_none _ _ ?h3]
  case h1 => intro c; cases h : mapLookup c (parseColumns d) <;> simp [h]
  case h2 => intro c; cases h : mapLookup c (parseColumns d) <;> simp [h]
  case h3 => intro c; cases h : mapLookup c (parseColumns d) <;> simp [h]
  rfl

/-- Diffing a schema text against itself produces no statement pairs, for
any iteration orders. -/
theorem generateSchemaDiffPairs_self (S : Str) (o : DiffOrders) :
    generateSchemaDiffPairs S S o = [] := by
  simp only [generateSchemaDiffPairs]
  rw [filterMap_eq_nil_of_none _ _ ?h1, filterMap_eq_nil_of_none _ _ ?h2]
  case h1 => intro t; cases h : mapLookup t (parseTablesMap S) <;> simp [h]
  case h2 => intro t; cases h : mapLookup t (parseTablesMap S) <;> simp [h]
  simp only [List.nil_append]
  generalize o.new3 = l
  induction l with
  | nil => rfl
  | cons a rest ih =>
    simp only [List.foldr_cons, ih, List.append_nil]
    cases h : mapLookup a (parseTablesMap S) <;>
      simp [h, compareTableDefinitions_self]

/-- C3. Diffing any schema DDL text against itself yields empty up and down
statement lists for every map iteration order, and the orchestrator then
generates no migration. -/
theorem c3_diff_self_empty (S : Str) (o : DiffOrders) :
    generateSchemaDiff S S o = ([], []) ∧ migrationOfDiff S S o = none := by
  have h := generateSchemaDiffPairs_self S o
  constructor
  · unfold generateSchemaDiff
    simp [h]
  · unfold migrationOfDiff generateSchemaDiff
    simp [h]

end Datara

namespace Datara

/-- A foldl preserves any invariant its step preserves. -/
theorem foldl_invariant {α β : Type} (P : β → Prop) (f : β → α → β) (l : List α) (b : β)
    (hb : P b) (hf : ∀ b a, P b → P (f b a)) : P (l.foldl f b) := by
  induction l generalizing b with
  | nil => exact hb
  | cons a rest ih => exact ih _ (hf b a hb)

/-- Membership after a Go map assignment: the element was present before or
is the new binding. -/
theorem mem_mapInsert {m : List (Str × Str)} {k v : Str} {p : Str × Str}
    (hp : p ∈ mapInsert m k v) : p ∈ m ∨ p = (k, v) := by
  unfold mapInsert at hp
  by_cases hany : (m.any fun q => q.1 = k) = true
  · rw [if_pos hany] at hp
    simp only [List.mem_map] at hp
    obtain ⟨q, hq, hfq⟩ := hp
    by_cases hqk : q.1 = k
    · right
      rw [← hfq]
      simp [hqk]
    · left
      rw [← hfq]
      simpa [hqk] using hq
  · rw [if_neg hany] at hp
    simpa using hp

/-- A successful lookup locates a member of the map. -/
theorem mapLookup_mem {m : List (Str × Str)} {k v : Str}
    (h : mapLookup k m = some v) : (k, v) ∈ m := by
  induction m with
  | nil => simp [mapLookup] at h
  | cons p rest ih =>
    simp only [mapLookup] at h
    by_cases hp : p.1 = k
    · rw [if_pos hp] at h
      have hpv : p = (k, v) := by
        obtain ⟨a, b⟩ := p
        simp_all
      rw [← hpv]
      exact List.mem_cons_self _ _
    · rw [if_neg hp] at h
      exact List.mem_cons_of_mem _ (ih h)

/-- Every stored value of parseTables is a trimmed statement that starts
with CREATE TABLE. -/
theorem parseTablesMap_values_create (s : Str) :
    ∀ p ∈ parseTablesMap s, startsWithStr (str "CREATE TABLE") p.2 := by
  unfold parseTablesMap
  refine foldl_invariant
    (fun m : List (Str × Str) => ∀ p ∈ m, startsWithStr (str "CREATE TABLE") p.2 = true)
    _ _ _ ?_ ?_
  · simp
  · intro m a hm p hp
    have hp' : p ∈ (if trimSpace a = [] then m
        else if startsWithStr (str "CREATE TABLE") (trimSpace a) then
          (if extractTableName (trimSpace a) ≠ [] then
            mapInsert m (extractTableName (trimSpace a)) (trimSpace a)
          else m)
        else m) := hp
    by_cases h1 : trimSpace a = []
    · rw [if_pos h1] at hp'
      exact hm p hp'
    · rw [if_neg h1] at hp'
      by_cases h2 : startsWithStr (str "CREATE TABLE") (trimSpace a) = true
      · rw [if_pos h2] at hp'
        by_cases h3 : extractTableName (trimSpace a) ≠ []
        · rw [if_pos h3] at hp'
          rcases mem_mapInsert hp' with hin | heq
          · exact hm p hin
          · rw [heq]
            exact h2
        · rw [if_neg h3] at hp'
          exact hm p hp'
      · rw [if_neg h2] at hp'
        exact hm p hp'

/-- A filterMap over keys of the map whose function wraps successful
lookups is a plain map. -/
theorem filterMap_lookup_eq_map {β : Type} (M : List (Str × Str)) (l : List Str)
    (h : ∀ t ∈ l, t ∈ mapKeys M) (g : Str → Str → β) :
    l.filterMap (fun t => match mapLookup t M with
      | some v => some (g t v)
      | none => none) =
    l.map (fun t => g t ((mapLookup t M).getD [])) := by
  induction l with
  | nil => rfl
  | cons a rest ih =>
    have ha := mapLookup_isSome_of_mem_keys (h a (by simp))
    cases hv : mapLookup a M with
    | none => rw [hv] at ha; simp at ha
    | some v =>
      simp only [List.filterMap_cons, List.map_cons, hv, Option.getD_some]
      rw [ih (fun t ht => h t (by simp [ht]))]

/-- C4. When the old schema parses to no tables, the diff emits exactly one
pair per table of the new schema, in iteration order: the table's stored
CREATE TABLE statement as the up statement and DROP TABLE IF EXISTS name
CASCADE as the down statement; no drop or modify statements appear, and
every up statement starts with CREATE TABLE. -/
theorem c4_additive_diff (oldS newS : Str) (o : DiffOrders)
    (hempty : parseTablesMap oldS = [])
    (hord : o.new2.Perm (mapKeys (parseTablesMap newS))) :
    (generateSchemaDiffPairs oldS newS o).map Prod.fst =
      o.new2.map (fun t => (mapLookup t (parseTablesMap newS)).getD []) ∧
    (generateSchemaDiffPairs oldS newS o).map Prod.snd =
      o.new2.map dropTableCascade ∧
    ∀ up ∈ (generateSchemaDiffPairs oldS newS o).map Prod.fst,
      startsWithStr (str "CREATE TABLE") up := by
  have hpairs : generateSchemaDiffPairs oldS newS o =
      o.new2.map (fun t => ((mapLookup t (parseTablesMap newS)).getD [], dropTableCascade t)) := by
    simp only [generateSchemaDiffPairs, hempty]
    rw [filterMap_eq_nil_of_none _ _ ?h1]
    case h1 => intro t; simp [mapLookup]
    have h3 : (o.new3.foldr (fun tableName acc =>
        (match mapLookup tableName (parseTablesMap newS), mapLookup tableName ([] : List (Str × Str)) with
         | some newTable, some oldTable =>
           compareTableDefinitions tableName oldTable newTable
             (o.colsOld tableName) (o.colsNew1 tableName) (o.colsNew2 tableName)
         | _, _ => []) ++ acc) []) = [] := by
      generalize o.new3 = l
      induction l with
      | nil => rfl
      | cons a rest ih =>
        simp only [List.foldr_cons, ih, List.append_nil]
        cases h : mapLookup a (parseTablesMap newS) <;> simp [h, mapLookup]
    rw [h3]
    simp only [List.nil_append, List.append_nil]
    have hfun : (fun t => match mapLookup t (parseTablesMap newS) with
        | some newTable =>
          if (mapLookup t ([] : List (Str × Str))).isNone then
            some (newTable, dropTableCascade t)
          else none
        | none => none) =
        (fun t => match mapLookup t (parseTablesMap newS) with
        | some newTable => some ((fun t v => (v, dropTableCascade t)) t newTable)
        | none => none) := by
      funext t
      cases h : mapLookup t (parseTablesMap newS) <;> simp [h, mapLookup]
    rw [hfun, filterMap_lookup_eq_map _ _ (fun t ht => hord.mem_iff.mp ht)]
  refine ⟨?_, ?_, ?_⟩
  · rw [hpairs]
    simp [List.map_map, Function.comp]
  · rw [hpairs]
    simp [List.map_map, Function.comp]
  · intro up hup
    rw [hpairs] at hup
    simp only [List.map_map, List.mem_map, Function.comp] at hup
    obtain ⟨t, ht, hval⟩ := hup
    have hmem : t ∈ mapKeys (parseTablesMap newS) := hord.mem_iff.mp ht
    have hsome := mapLookup_isSome_of_mem_keys hmem
    cases hv : mapLookup t (parseTablesMap newS) with
    | none => rw [hv] at hsome; simp at hsome
    | some v =>
      have hupv : up = v := by
        rw [← hval, hv]
        rfl
      rw [hupv]
      exact parseTablesMap_values_create newS _ (mapLookup_mem hv)

end Datara

namespace Datara

/-- The new schema of the additive-diff example: one users table. -/
def c4New : Str :=
  str "CREATE TABLE \"users\" (\n  \"id\" BIGINT,\n  \"name\" VARCHAR(255),\n  PRIMARY KEY (\"id\")\n)"

/-- C4, witness. The additive diff theorem applies to the empty old schema
and a concrete one-table new schema, with the construction-order iteration. -/
theorem c4_additive_diff_witness :
    (parseTablesMap (str "") = [] ∧
     (canonicalOrders (str "") c4New).new2.Perm (mapKeys (parseTablesMap c4New))) ∧
    ((generateSchemaDiffPairs (str "") c4New (canonicalOrders (str "") c4New)).map Prod.fst =
       (canonicalOrders (str "") c4New).new2.map
         (fun t => (mapLookup t (parseTablesMap c4New)).getD []) ∧
     (generateSchemaDiffPairs (str "") c4New (canonicalOrders (str "") c4New)).map Prod.snd =
       (canonicalOrders (str "") c4New).new2.map dropTableCascade ∧
     ∀ up ∈ (generateSchemaDiffPairs (str "") c4New (canonicalOrders (str "") c4New)).map Prod.fst,
       startsWithStr (str "CREATE TABLE") up) :=
  ⟨⟨by decide, List.Perm.refl _⟩,
   c4_additive_diff _ _ _ (by decide) (List.Perm.refl _)⟩

/-- The table loop of ToSQL is an intercalation of the rendered tables. -/
theorem toSQLTablesLoop_eq_intercalate (l : List Table) :
    toSQLTablesLoop l = List.intercalate (str "\n\n") (l.map createTableSQL) := by
  induction l with
  | nil => rfl
  | cons t rest ih =>
    cases rest with
    | nil => simp [toSQLTablesLoop, List.intercalate, List.intersperse, List.flatten]
    | cons u rest2 =>
      simp only [toSQLTablesLoop] at ih ⊢
      rw [ih]
      simp [List.intercalate, List.intersperse, List.flatten, List.append_assoc]

/-- The reverse-order DROP loop is an intercalation of the DROP lines. -/
theorem toDownSQLLoop_eq_intercalate (l : List Table) :
    toDownSQLLoop l = List.intercalate (str "\n") (l.map dropTableLine) := by
  induction l with
  | nil => rfl
  | cons t rest ih =>
    cases rest with
    | nil => simp [toDownSQLLoop, List.intercalate, List.intersperse, List.flatten]
    | cons u rest2 =>
      simp only [toDownSQLLoop] at ih ⊢
      rw [ih]
      simp [List.intercalate, List.intersperse, List.flatten, List.append_assoc]

/-- C5. ToSQL produces the migrate:up marker, the CREATE TABLE statements
in schema order separated by blank lines, the migrate:down marker, and one
DROP TABLE IF EXISTS line per table in reverse schema order. -/
theorem c5_tosql_document_shape (s : Schema) :
    s.toSQL =
      str "-- migrate:up\n\n" ++
      List.intercalate (str "\n\n") (s.tables.map createTableSQL) ++
      str "\n\n-- migrate:down\n\n" ++
      List.intercalate (str "\n") (s.tables.reverse.map dropTableLine) := by
  unfold Schema.toSQL Schema.toDownSQL
  rw [toSQLTablesLoop_eq_intercalate, toDownSQLLoop_eq_intercalate]

end Datara

namespace Datara

/-- The bytewise order is asymmetric. -/
theorem strLt_asymm : ∀ a b : Str, strLt a b = true → strLt b a = false
  | [], [] => by simp [strLt]
  | [], _ :: _ => by simp [strLt]
  | _ :: _, [] => by simp [strLt]
  | a :: as, b :: bs => by
    intro h
    simp only [strLt] at h ⊢
    by_cases h1 : a.toNat < b.toNat
    · rw [if_neg (by omega), if_pos (by omega : b.toNat > a.toNat)]
    · rw [if_neg h1] at h
      by_cases h2 : b.toNat < a.toNat
      · rw [if_pos h2] at h
        exact absurd h (by simp)
      · rw [if_neg h2] at h
        rw [if_neg (by omega), if_neg (by omega)]
        exact strLt_asymm as bs h

/-- The bytewise order is cotransitive. -/
theorem strLt_cotrans : ∀ a b c : Str, strLt a c = true →
    strLt a b = true ∨ strLt b c = true
  | [], [], _, h => Or.inr h
  | [], _ :: _, _, _ => Or.inl (by simp [strLt])
  | _ :: _, _, [], h => by simp [strLt] at h
  | _ :: _, [], _ :: _, _ => Or.inr (by simp [strLt])
  | a :: as, b :: bs, c :: cs, h => by
    simp only [strLt] at h ⊢
    by_cases hac : a.toNat < c.toNat
    · by_cases hab : a.toNat < b.toNat
      · left
        rw [if_pos hab]
      · right
        rw [if_pos (by omega : b.toNat < c.toNat)]
    · rw [if_neg hac] at h
      by_cases hca : c.toNat < a.toNat
      · rw [if_pos hca] at h
        exact absurd h (by simp)
      · rw [if_neg hca] at h
        by_cases hab : a.toNat < b.toNat
        · left
          rw [if_pos hab]
        · by_cases hba : b.toNat < a.toNat
          · right
            rw [if_pos (by omega : b.toNat < c.toNat)]
          · rcases strLt_cotrans as bs cs h with h1 | h2
            · left
              rw [if_neg hab, if_neg (by omega)]
              exact h1
            · right
              rw [if_neg (by omega : ¬b.toNat < c.toNat), if_neg (by omega)]
              exact h2

/-- Everything in an ordered insertion is the new element or was present. -/
theorem mem_insertSorted {z x : Str} : ∀ {l : List Str},
    z ∈ insertSorted x l → z = x ∨ z ∈ l
  | [], h => Or.inl (by simpa [insertSorted] using h)
  | y :: ys, h => by
    simp only [insertSorted] at h
    by_cases hc : strLt y x = true
    · rw [if_pos hc] at h
      rcases List.mem_cons.mp h with h1 | h2
      · right
        simp [h1]
      · rcases mem_insertSorted h2 with h3 | h4
        · exact Or.inl h3
        · right
          simp [h4]
    · rw [if_neg hc] at h
      rcases List.mem_cons.mp h with h1 | h2
      · exact Or.inl h1
      · exact Or.inr h2

/-- Ordered insertion preserves sortedness in the bytewise order. -/
theorem insertSorted_pairwise {x : Str} : ∀ {l : List Str},
    l.Pairwise (fun a b => strLt b a = false) →
    (insertSorted x l).Pairwise (fun a b => strLt b a = false)
  | [], _ => by simp [insertSorted]
  | y :: ys, hl => by
    obtain ⟨hy, hys⟩ := List.pairwise_cons.mp hl
    simp only [insertSorted]
    by_cases hc : strLt y x = true
    · rw [if_pos hc]
      refine List.pairwise_cons.mpr ⟨?_, insertSorted_pairwise hys⟩
      intro z hz
      rcases mem_insertSorted hz with h1 | h2
      · rw [h1]
        exact strLt_asymm _ _ hc
      · exact hy z h2
    · rw [if_neg hc]
      refine List.pairwise_cons.mpr ⟨?_, hl⟩
      intro z hz
      rcases List.mem_cons.mp hz with h1 | h2
      · rw [h1]
        simpa using hc
      · cases hx : strLt z x with
        | false => rfl
        | true =>
          rcases strLt_cotrans z y x hx with h3 | h4
          · rw [hy z h2] at h3
            exact h3.symm
          · rw [eq_false_of_ne_true hc] at h4
            exact h4.symm

/-- Ordered insertion is a permutation of consing. -/
theorem insertSorted_perm (x : Str) : ∀ l : List Str,
    (insertSorted x l).Perm (x :: l)
  | [] => by simp [insertSorted]
  | y :: ys => by
    simp only [insertSorted]
    by_cases hc : strLt y x = true
    · rw [if_pos hc]
      exact ((insertSorted_perm x ys).cons y).trans (List.Perm.swap x y ys)
    · rw [if_neg hc]

/-- sort.Strings returns a permutation of its input. -/
theorem sortStrs_perm : ∀ l : List Str, (sortStrs l).Perm l
  | [] => List.Perm.refl _
  | x :: xs => (insertSorted_perm x (sortStrs xs)).trans ((sortStrs_perm xs).cons x)

/-- sort.Strings returns a list sorted by the bytewise lexicographic
order. -/
theorem sortStrs_pairwise : ∀ l : List Str,
    (sortStrs l).Pairwise (fun a b => strLt b a = false)
  | [] => List.Pairwise.nil
  | x :: xs => insertSorted_pairwise (sortStrs_pairwise xs)

/-- The filename-collecting loop is a filter and map. -/
theorem sqlFilenames_eq (listing : List DirEntry) :
    sqlFilenames listing =
      (listing.filter (fun e => !e.isDir && hasSuffixStr (str ".sql") e.name)).map
        DirEntry.name := by
  unfold sqlFilenames
  suffices h : ∀ (l : List DirEntry) (acc : List Str),
      l.foldl (fun acc e => if !e.isDir && hasSuffixStr (str ".sql") e.name then
          acc ++ [e.name] else acc) acc =
        acc ++ (l.filter (fun e => !e.isDir && hasSuffixStr (str ".sql") e.name)).map
          DirEntry.name by
    simpa using h listing []
  intro l
  induction l with
  | nil => simp
  | cons e rest ih =>
    intro acc
    rw [List.foldl_cons, ih]
    by_cases hc : (!e.isDir && hasSuffixStr (str ".sql") e.name) = true
    · simp only [List.filter_cons, hc, if_pos, List.map_cons, if_true]
      simp [List.append_assoc]
    · simp only [List.filter_cons, hc, if_false, Bool.false_eq_true]

/-- An accumulate-append loop is a flattened map. -/
theorem foldl_append_flat {β : Type} (f : Str → List β) (l : List Str) :
    ∀ acc : List β, l.foldl (fun acc n => acc ++ f n) acc = acc ++ (l.map f).flatten := by
  induction l with
  | nil => simp
  | cons n rest ih =>
    intro acc
    rw [List.foldl_cons, ih]
    simp [List.append_assoc]

/-- C6. The file hash is the h1-prefixed base64 of the SHA-256 of the
content; the global hash is the file hash of the concatenation of the
contents of the .sql files in sorted filename order, where sort.Strings
yields a lexicographically sorted permutation of the filenames; and the
written manifest is the global hash line followed by one name-space-hash
line per recorded file, sorted by filename. -/
theorem c6_checksum_ledger_contract (content : Bytes) (listing : List DirEntry)
    (m : List (Str × Str)) (g : Str) :
    calculateFileHash content = str "h1:" ++ base64Encode (sha256 content) ∧
    calculateGlobalHash (some listing) =
      calculateFileHash (List.flatten
        ((sortStrs ((listing.filter (fun e => !e.isDir && hasSuffixStr (str ".sql") e.name)).map
            DirEntry.name)).map (contentOf listing))) ∧
    calculateGlobalHash none = calculateFileHash [] ∧
    (∀ l : List Str, (sortStrs l).Perm l ∧
      (sortStrs l).Pairwise (fun a b => strLt b a = false)) ∧
    writeChecksumFile m g =
      g ++ ['\n'] ++ List.flatten ((sortStrs (mapKeys m)).map
        (fun k => k ++ [' '] ++ (mapLookup k m).getD [] ++ ['\n'])) := by
  refine ⟨rfl, ?_, rfl, fun l => ⟨sortStrs_perm l, sortStrs_pairwise l⟩, ?_⟩
  · simp only [calculateGlobalHash, concatContents]
    rw [sqlFilenames_eq, foldl_append_flat (contentOf listing)]
    rfl
  · simp only [writeChecksumFile, checksumLines]
    rw [foldl_append_flat (fun n => n ++ [' '] ++ (mapLookup n m).getD [] ++ ['\n'])]
    rfl

end Datara

namespace Datara

/-- The parameter parse never changes the base type name. -/
theorem parseTypeParams_name (params : Str) (t : SQLType) :
    (parseTypeParams params t).name = t.name := by
  unfold parseTypeParams
  split_ifs with h
  · split
    · split
      · split <;> simp
      · split <;> simp
    · rfl
  · split <;> simp

/-- The validation switch never panics. -/
theorem validateBaseType_ne_panics (t : SQLType) : validateBaseType t ≠ .panics := by
  simp only [validateBaseType]
  by_cases h1 : t.name = str "TINYINT"
  · rw [if_pos h1]
    simp
  rw [if_neg h1]
  by_cases h2 : t.name = str "SMALLINT"
  · rw [if_pos h2]
    simp
  rw [if_neg h2]
  by_cases h3 : t.name = str "MEDIUMINT"
  · rw [if_pos h3]
    simp
  rw [if_neg h3]
  by_cases h4 : (decide (t.name = str "INT") || decide (t.name = str "INTEGER")) = true
  · rw [if_pos h4]
    simp
  rw [if_neg h4]
  by_cases h5 : t.name = str "BIGINT"
  · rw [if_pos h5]
    simp
  rw [if_neg h5]
  by_cases h6 : (decide (t.name = str "DECIMAL") || decide (t.name = str "NUMERIC")) = true
  · rw [if_pos h6]
    simp
  rw [if_neg h6]
  by_cases h7 : t.name = str "FLOAT"
  · rw [if_pos h7]
    simp
  rw [if_neg h7]
  by_cases h8 : (decide (t.name = str "DOUBLE") || decide (t.name = str "REAL")) = true
  · rw [if_pos h8]
    simp
  rw [if_neg h8]
  by_cases h9 : (decide (t.name = str "VARCHAR") || decide (t.name = str "CHAR")) = true
  · rw [if_pos h9]
    simp
  rw [if_neg h9]
  by_cases h10 : (decide (t.name = str "TEXT") || decide (t.name = str "TINYTEXT") || decide (t.name = str "MEDIUMTEXT") || decide (t.name = str "LONGTEXT")) = true
  · rw [if_pos h10]
    simp
  rw [if_neg h10]
  by_cases h11 : (decide (t.name = str "DATETIME") || decide (t.name = str "TIMESTAMP") || decide (t.name = str "DATE") || decide (t.name = str "TIME")) = true
  · rw [if_pos h11]
    simp
  rw [if_neg h11]
  by_cases h12 : (decide (t.name = str "BOOLEAN") || decide (t.name = str "BOOL")) = true
  · rw [if_pos h12]
    simp
  rw [if_neg h12]
  by_cases h13 : t.name = str "ENUM"
  · rw [if_pos h13]
    simp
  rw [if_neg h13]
  by_cases h14 : t.name = str "JSON"
  · rw [if_pos h14]
    simp
  rw [if_neg h14]
  simp

/-- The validation switch errs exactly on unsupported base type names. -/
theorem validateBaseType_err_iff (t : SQLType) :
    validateBaseType t = .err ↔ t.name ∉ supportedTypeNames := by
  simp only [validateBaseType]
  by_cases h1 : t.name = str "TINYINT"
  · rw [if_pos h1]
    simp [supportedTypeNames, h1]
  rw [if_neg h1]
  by_cases h2 : t.name = str "SMALLINT"
  · rw [if_pos h2]
    simp [supportedTypeNames, h2]
  rw [if_neg h2]
  by_cases h3 : t.name = str "MEDIUMINT"
  · rw [if_pos h3]
    simp [supportedTypeNames, h3]
  rw [if_neg h3]
  by_cases h4 : (decide (t.name = str "INT") || decide (t.name = str "INTEGER")) = true
  · rw [if_pos h4]
    simp only [Bool.or_eq_true, decide_eq_true_eq] at h4
    rcases h4 with hx | hx <;> simp [supportedTypeNames, hx]
  rw [if_neg h4]
  by_cases h5 : t.name = str "BIGINT"
  · rw [if_pos h5]
    simp [supportedTypeNames, h5]
  rw [if_neg h5]
  by_cases h6 : (decide (t.name = str "DECIMAL") || decide (t.name = str "NUMERIC")) = true
  · rw [if_pos h6]
    simp only [Bool.or_eq_true, decide_eq_true_eq] at h6
    rcases h6 with hx | hx <;> simp [supportedTypeNames, hx]
  rw [if_neg h6]
  by_cases h7 : t.name = str "FLOAT"
  · rw [if_pos h7]
    simp [supportedTypeNames, h7]
  rw [if_neg h7]
  by_cases h8 : (decide (t.name = str "DOUBLE") || decide (t.name = str "REAL")) = true
  · rw [if_pos h8]
    simp only [Bool.or_eq_true, decide_eq_true_eq] at h8
    rcases h8 with hx | hx <;> simp [supportedTypeNames, hx]
  rw [if_neg h8]
  by_cases h9 : (decide (t.name = str "VARCHAR") || decide (t.name = str "CHAR")) = true
  · rw [if_pos h9]
    simp only [Bool.or_eq_true, decide_eq_true_eq] at h9
    rcases h9 with hx | hx <;> simp [supportedTypeNames, hx]
  rw [if_neg h9]
  by_cases h10 : (decide (t.name = str "TEXT") || decide (t.name = str "TINYTEXT") || decide (t.name = str "MEDIUMTEXT") || decide (t.name = str "LONGTEXT")) = true
  · rw [if_pos h10]
    simp only [Bool.or_eq_true, decide_eq_true_eq] at h10
    rcases h10 with ((hx | hx) | hx) | hx <;> simp [supportedTypeNames, hx]
  rw [if_neg h10]
  by_cases h11 : (decide (t.name = str "DATETIME") || decide (t.name = str "TIMESTAMP") || decide (t.name = str "DATE") || decide (t.name = str "TIME")) = true
  · rw [if_pos h11]
    simp only [Bool.or_eq_true, decide_eq_true_eq] at h11
    rcases h11 with ((hx | hx) | hx) | hx <;> simp [supportedTypeNames, hx]
  rw [if_neg h11]
  by_cases h12 : (decide (t.name = str "BOOLEAN") || decide (t.name = str "BOOL")) = true
  · rw [if_pos h12]
    simp only [Bool.or_eq_true, decide_eq_true_eq] at h12
    rcases h12 with hx | hx <;> simp [supportedTypeNames, hx]
  rw [if_neg h12]
  by_cases h13 : t.name = str "ENUM"
  · rw [if_pos h13]
    simp [supportedTypeNames, h13]
  rw [if_neg h13]
  by_cases h14 : t.name = str "JSON"
  · rw [if_pos h14]
    simp [supportedTypeNames, h14]
  rw [if_neg h14]
  simp only [Bool.or_eq_true, decide_eq_true_eq, not_or] at h4 h6 h8 h9 h10 h11 h12
  simp [supportedTypeNames, h1, h2, h3, h4.1, h4.2, h5, h6.1, h6.2, h7, h8.1, h8.2, h9.1, h9.2, h10.1.1.1, h10.1.1.2, h10.1.2, h10.2, h11.1.1.1, h11.1.1.2, h11.1.2, h11.2, h12.1, h12.2, h13, h14]

/-- The parameter parse of a list with no comma: a single length, with the
precision and scale untouched. -/
theorem parseTypeParams_no_comma (params : Str) (t : SQLType) (l : Int)
    (hc : containsSub (str ",") params = false) (hl : atoi params = some l) :
    parseTypeParams params t = { t with length := l } := by
  unfold parseTypeParams
  rw [if_neg (by simp [hc]), hl]

/-- The parameter parse of a list with a comma splitting into two numerals:
a precision and scale pair, with the length untouched. -/
theorem parseTypeParams_comma (params : Str) (t : SQLType) (p0 p1 : Str) (p q : Int)
    (hc : containsSub (str ",") params = true)
    (hs : splitOnChar ',' params = [p0, p1])
    (hp : atoi (trimSpace p0) = some p) (hq : atoi (trimSpace p1) = some q) :
    parseTypeParams params t = { t with precision := p, scale := q } := by
  unfold parseTypeParams
  rw [if_pos hc, hs]
  dsimp only
  rw [hp]
  dsimp only
  rw [hq]

/-- C8, amended. On every input whose parenthesized parameters are
well-formed (the first closing parenthesis, when an opening one occurs,
lies beyond it), ValidateSQLType does not panic; it fails with the
unsupported-type error exactly when the base type name, after stripping
UNSIGNED and any parenthesized parameters, is not a supported name;
when parentheses occur it applies the validation switch to the base name
with the parameter list between them parsed by parseTypeParams, which
stores a single length when the list has no comma and a precision and
scale pair when it contains one. -/
theorem c8_validate_error_iff_unsupported (s : Str) (h : parenWellFormed s = true) :
    ValidateSQLType s ≠ .panics ∧
    (ValidateSQLType s = .err ↔ baseTypeName s ∉ supportedTypeNames) ∧
    (∀ i j, indexOfSub (str "(") (normalizeTypeStr s) = some i →
        indexOfSub (str ")") (normalizeTypeStr s) = some j →
        ValidateSQLType s =
          validateBaseType (parseTypeParams
            (slice (normalizeTypeStr s) (i + 1) j)
            { name := baseTypeName s
              unsigned := containsSub (str "UNSIGNED") (toUpperStr (trimSpace s)) })) ∧
    (∀ params t l, containsSub (str ",") params = false → atoi params = some l →
        parseTypeParams params t = { t with length := l }) ∧
    (∀ params t p0 p1 p q, containsSub (str ",") params = true →
        splitOnChar ',' params = [p0, p1] →
        atoi (trimSpace p0) = some p → atoi (trimSpace p1) = some q →
        parseTypeParams params t = { t with precision := p, scale := q }) := by
  unfold ValidateSQLType baseTypeName parenWellFormed at *
  set u := normalizeTypeStr s
  unfold validateNormalized
  cases hi : indexOfSub (str "(") u with
  | none =>
    refine ⟨validateBaseType_ne_panics _, validateBaseType_err_iff _, ?_, ?_, ?_⟩
    · intro i j hij
      simp at hij
    · intro params t l hc hl
      exact parseTypeParams_no_comma params t l hc hl
    · intro params t p0 p1 p q hc hs hp hq
      exact parseTypeParams_comma params t p0 p1 p q hc hs hp hq
  | some i =>
    cases hj : indexOfSub (str ")") u with
    | none =>
      rw [hi, hj] at h
      simp at h
    | some j =>
      rw [hi, hj] at h
      simp at h
      dsimp only
      rw [if_neg (by omega : ¬j < i + 1)]
      refine ⟨validateBaseType_ne_panics _, ?_, ?_, ?_, ?_⟩
      · rw [validateBaseType_err_iff, parseTypeParams_name]
      · intro i' j' hi' hj'
        injection hi' with hii
        injection hj' with hjj
        subst hii
        subst hjj
        rfl
      · intro params t l hc hl
        exact parseTypeParams_no_comma params t l hc hl
      · intro params t p0 p1 p q hc hs hp hq
        exact parseTypeParams_comma params t p0 p1 p q hc hs hp hq

/-- C8, witness. The amended validation characterization applies to the
concrete input DECIMAL(10,2). -/
theorem c8_validate_error_iff_unsupported_witness :
    parenWellFormed (str "DECIMAL(10,2)") = true ∧
    (ValidateSQLType (str "DECIMAL(10,2)") ≠ .panics ∧
     (ValidateSQLType (str "DECIMAL(10,2)") = .err ↔
        baseTypeName (str "DECIMAL(10,2)") ∉ supportedTypeNames) ∧
     (∀ i j, indexOfSub (str "(") (normalizeTypeStr (str "DECIMAL(10,2)")) = some i →
         indexOfSub (str ")") (normalizeTypeStr (str "DECIMAL(10,2)")) = some j →
         ValidateSQLType (str "DECIMAL(10,2)") =
           validateBaseType (parseTypeParams
             (slice (normalizeTypeStr (str "DECIMAL(10,2)")) (i + 1) j)
             { name := baseTypeName (str "DECIMAL(10,2)")
               unsigned := containsSub (str "UNSIGNED")
                 (toUpperStr (trimSpace (str "DECIMAL(10,2)"))) })) ∧
     (∀ params t l, containsSub (str ",") params = false → atoi params = some l →
         parseTypeParams params t = { t with length := l }) ∧
     (∀ params t p0 p1 p q, containsSub (str ",") params = true →
         splitOnChar ',' params = [p0, p1] →
         atoi (trimSpace p0) = some p → atoi (trimSpace p1) = some q →
         parseTypeParams params t = { t with precision := p, scale := q })) :=
  ⟨by decide, c8_validate_error_iff_unsupported _ (by decide)⟩

end Datara

namespace Datara

/-- The prior manifest of the overwrite counterexample: one recorded file
a.sql with hash oldhash. -/
def c10Manifest : Str := str "h1:global\na.sql oldhash\n"

/-- C10, counterexample. Recording a migration file whose name already has
an entry rewrites that entry: after updating with migrations/a.sql the
manifest's entry for a.sql is no longer oldhash, so an existing per-file
checksum was rewritten. -/
theorem c10_update_rewrites_existing :
    readChecksumFile (some c10Manifest) = .ok [(str "a.sql", str "oldhash")] ∧
    updatedChecksumMap (some c10Manifest) (str "migrations/a.sql") [] =
      .ok [(str "a.sql", calculateFileHash [])] ∧
    mapLookup (str "a.sql") [(str "a.sql", calculateFileHash [])] ≠
      some (str "oldhash") := by
  refine ⟨rfl, rfl, ?_⟩
  intro hq
  have h1 : mapLookup (str "a.sql") [(str "a.sql", calculateFileHash [])] =
      some (calculateFileHash []) := by simp [mapLookup]
  rw [h1] at hq
  have h2 : calculateFileHash [] = str "oldhash" := by
    simpa using hq
  have h3 : (calculateFileHash []).head? = some 'h' := rfl
  rw [h2] at h3
  simp [str] at h3

/-- C10, amended. Updating the checksums preserves the entry of every
filename other than the new file's base name, and sets the new file's
entry to the hash of its content, overwriting any previous entry recorded
under the same name. -/
theorem c10_update_preserves_other_entries (manifest : Option Str) (newFile : Str)
    (content : Bytes) (m m' : List (Str × Str)) (k : Str)
    (hm : readChecksumFile manifest = .ok m)
    (hm' : updatedChecksumMap manifest newFile content = .ok m')
    (hk : k ≠ baseName newFile) :
    mapLookup k m' = mapLookup k m ∧
    mapLookup (baseName newFile) m' = some (calculateFileHash content) := by
  have hm'' : m' = mapInsert m (baseName newFile) (calculateFileHash content) := by
    unfold updatedChecksumMap at hm'
    rw [hm] at hm'
    simpa using hm'.symm
  rw [hm'']
  exact ⟨mapLookup_mapInsert_ne _ _ _ hk, mapLookup_mapInsert_self _ _ _⟩

/-- The prior manifest used to instantiate the frame property. -/
def c10WitnessManifest : Str := str "h1:g\nb.sql keep\n"

/-- C10, witness. The frame property applies to a concrete manifest with a
recorded file b.sql and the new file migrations/a.sql. -/
theorem c10_update_preserves_other_entries_witness :
    (readChecksumFile (some c10WitnessManifest) = .ok [(str "b.sql", str "keep")] ∧
     updatedChecksumMap (some c10WitnessManifest) (str "migrations/a.sql") [] =
       .ok (mapInsert [(str "b.sql", str "keep")] (str "a.sql") (calculateFileHash [])) ∧
     str "b.sql" ≠ baseName (str "migrations/a.sql")) ∧
    (mapLookup (str "b.sql")
        (mapInsert [(str "b.sql", str "keep")] (str "a.sql") (calculateFileHash [])) =
       mapLookup (str "b.sql") [(str "b.sql", str "keep")] ∧
     mapLookup (baseName (str "migrations/a.sql"))
         (mapInsert [(str "b.sql", str "keep")] (str "a.sql") (calculateFileHash [])) =
       some (calculateFileHash [])) :=
  ⟨⟨rfl, rfl, by decide⟩,
   c10_update_preserves_other_entries (some c10WitnessManifest)
     (str "migrations/a.sql") [] [(str "b.sql", str "keep")]
     (mapInsert [(str "b.sql", str "keep")] (str "a.sql") (calculateFileHash []))
     (str "b.sql") rfl rfl (by decide)⟩

end Datara
